import Mathlib

/-!
Verification of the EVE-Production-Tracker core: the module registry
(`src/core/module_registry.py`) and the blueprint-ownership overlay logic
(`src/core/gui/blueprints_gui.py`, class `BlueprintManager`).

Python dictionaries are embedded as association lists whose update replaces
the value at an existing key in place and appends new keys at the end
(Python insertion-order semantics).  Overlay content equality is stated
per-key (Python `dict` equality is key/value extensional).  Tk string
variables are embedded as optional string fields; the one runtime exception
source the code guards against (`ownership_var.get()` inside the
`try/except Exception` blocks of the bulk pass) is embedded as an
`Except Unit String` value.
-/

namespace EveTracker

/-- Association-list lookup, embedding Python `d.get(k)` / `k in d`. -/
def alookup {α : Type} : List (String × α) → String → Option α
  | [], _ => none
  | (k', v) :: t, k => if k' = k then some v else alookup t k

/-- Association-list store, embedding Python `d[k] = v`: replaces the value
at an existing key in place, appends a new key at the end. -/
def aupdate {α : Type} : List (String × α) → String → α → List (String × α)
  | [], k, v => [(k, v)]
  | (k', v') :: t, k, v =>
    if k' = k then (k, v) :: t else (k', v') :: aupdate t k v

theorem alookup_aupdate_self {α : Type} (l : List (String × α)) (k : String) (v : α) :
    alookup (aupdate l k v) k = some v := by
  induction l with
  | nil => simp [aupdate, alookup]
  | cons h t ih =>
    obtain ⟨k', v'⟩ := h
    by_cases hk : k' = k
    · simp [aupdate, hk, alookup]
    · simp [aupdate, hk, alookup, ih]

theorem alookup_aupdate_ne {α : Type} (l : List (String × α)) (k k' : String) (v : α)
    (h : k' ≠ k) : alookup (aupdate l k v) k' = alookup l k' := by
  have h2 : ¬k = k' := fun hh => h hh.symm
  induction l with
  | nil => simp [aupdate, alookup, h2]
  | cons hd t ih =>
    obtain ⟨k'', v''⟩ := hd
    by_cases hk : k'' = k
    · subst hk
      simp [aupdate, alookup, h2]
    · by_cases hk2 : k'' = k'
      · subst hk2
        simp [aupdate, alookup, hk]
      · simp [aupdate, alookup, hk, hk2, ih]

/-- One record of the persisted blueprint-ownership overlay:
`{owned, invented, me, te}` (spec §3; the shape written by
`update_all_ownership_values` in `blueprints_gui.py`). -/
structure Record where
  owned : Bool
  invented : Bool
  me : Int
  te : Int
deriving Repr, DecidableEq

/-- A category map of the overlay: entity name → record. -/
abbrev CategoryMap := List (String × Record)

/-- The blueprint-ownership overlay (`blueprint_config` in the source):
category key → entity name → record. -/
abbrev Cfg := List (String × CategoryMap)

/-- `cfg.get(category, {}).get(name)` — the overlay record at a
(category, name) pair, when present. -/
def lookup2 (cfg : Cfg) (c n : String) : Option Record :=
  (alookup cfg c).bind fun m => alookup m n

/-- `cfg.setdefault(category, {})[name] = r` — the combined effect of the
source's `if category not in cfg: cfg[category] = {}` followed by
`cfg[category][name] = r`. -/
def write2 (cfg : Cfg) (c n : String) (r : Record) : Cfg :=
  aupdate cfg c (aupdate ((alookup cfg c).getD []) n r)

theorem lookup2_write2_self (cfg : Cfg) (c n : String) (r : Record) :
    lookup2 (write2 cfg c n r) c n = some r := by
  simp [lookup2, write2, alookup_aupdate_self]

theorem lookup2_write2_ne (cfg : Cfg) (c n c' n' : String) (r : Record)
    (h : ¬(c' = c ∧ n' = n)) :
    lookup2 (write2 cfg c n r) c' n' = lookup2 cfg c' n' := by
  by_cases hc : c' = c
  · subst hc
    have hn' : n' ≠ n := fun hh => h ⟨rfl, hh⟩
    have hn2 : ¬n = n' := fun hh => hn' hh.symm
    unfold lookup2 write2
    rw [alookup_aupdate_self]
    cases hcc : alookup cfg c' with
    | none => simp [hcc, Option.bind, alookup_aupdate_ne _ _ _ _ hn', alookup, hn2]
    | some m => simp [hcc, Option.bind, alookup_aupdate_ne _ _ _ _ hn']
  · simp [lookup2, write2, alookup_aupdate_ne _ _ _ _ hc]

/-- Python truth-status values for a cached `owned_status` mirror field: the
registry filter code tolerates both a `bool` and a legacy string
representation (`isinstance` checks in `get_ships_by_filter`). -/
inductive PyOwned where
  | bool (b : Bool)
  | str (s : String)
deriving Repr, DecidableEq

/-! ### Python `int(...)` and `str.isdigit()` on entry-field text -/

/-- Numeric value of a digit string (most-significant first). -/
def digitsVal (cs : List Char) : Nat :=
  cs.foldl (fun n c => 10 * n + (c.toNat - 48)) 0

/-- Python `str.isdigit()` on the character list: nonempty and all digits. -/
def pyIsDigitL (cs : List Char) : Bool :=
  !cs.isEmpty && cs.all Char.isDigit

/-- Python `str.isdigit()`. -/
def pyIsDigit (s : String) : Bool := pyIsDigitL s.data

/-- Strip leading and trailing whitespace (Python `int` ignores it). -/
def stripWs (cs : List Char) : List Char :=
  ((cs.dropWhile Char.isWhitespace).reverse.dropWhile Char.isWhitespace).reverse

/-- Python `int(s)` on the character list: optional sign, then a nonempty
run of digits; `none` embeds a raised `ValueError`. -/
def pyIntL (cs : List Char) : Option Int :=
  match stripWs cs with
  | [] => none
  | c :: rest =>
    if c = '-' then
      if !rest.isEmpty && rest.all Char.isDigit then some (-(digitsVal rest : Int)) else none
    else if c = '+' then
      if !rest.isEmpty && rest.all Char.isDigit then some ((digitsVal rest : Int)) else none
    else
      if (c :: rest).all Char.isDigit then some ((digitsVal (c :: rest) : Int)) else none

/-- Python `int(s)` for a string; `none` embeds a raised `ValueError`. -/
def pyInt (s : String) : Option Int := pyIntL s.data

theorem digit_not_ws {c : Char} (h : c.isDigit = true) : c.isWhitespace = false := by
  simp only [Char.isDigit, Bool.and_eq_true, decide_eq_true_eq] at h
  obtain ⟨h1, _⟩ := h
  simp only [Char.isWhitespace, Bool.or_eq_false_iff, decide_eq_false_iff_not]
  refine ⟨⟨⟨?_, ?_⟩, ?_⟩, ?_⟩ <;> (intro hc; subst hc; revert h1; decide)

theorem dropWhile_ws_of_all_digits {cs : List Char} (h : cs.all Char.isDigit = true) :
    cs.dropWhile Char.isWhitespace = cs := by
  cases cs with
  | nil => rfl
  | cons c t =>
    have hc : c.isDigit = true := by
      have := List.all_eq_true.mp h c (List.mem_cons_self c t)
      exact this
    simp [List.dropWhile, digit_not_ws hc]

theorem stripWs_of_all_digits {cs : List Char} (h : cs.all Char.isDigit = true) :
    stripWs cs = cs := by
  unfold stripWs
  rw [dropWhile_ws_of_all_digits h]
  have hrev : cs.reverse.all Char.isDigit = true := by
    rw [List.all_eq_true] at h ⊢
    intro c hc
    exact h c (List.mem_reverse.mp hc)
  rw [dropWhile_ws_of_all_digits hrev, List.reverse_reverse]

/-- If `s.isdigit()` holds then `int(s)` succeeds with a nonnegative value. -/
theorem pyIntL_of_isDigit {cs : List Char} (h : pyIsDigitL cs = true) :
    pyIntL cs = some ((digitsVal cs : Int)) ∧ 0 ≤ ((digitsVal cs : Int)) := by
  rcases Bool.and_eq_true _ _ |>.mp h with ⟨hne, hall⟩
  have hs : stripWs cs = cs := stripWs_of_all_digits hall
  cases cs with
  | nil => simp [List.isEmpty] at hne
  | cons c t =>
    have hc : c.isDigit = true := List.all_eq_true.mp hall c (List.mem_cons_self c t)
    have hcm : c ≠ '-' := by
      intro hh; subst hh; simp [Char.isDigit] at hc
    have hcp : c ≠ '+' := by
      intro hh; subst hh; simp [Char.isDigit] at hc
    constructor
    · unfold pyIntL
      rw [hs]
      simp only [if_neg hcm, if_neg hcp, if_pos hall]
    · exact Int.ofNat_nonneg _

theorem pyInt_of_isDigit {s : String} (h : pyIsDigit s = true) :
    ∃ n : Int, pyInt s = some n ∧ 0 ≤ n :=
  ⟨_, (pyIntL_of_isDigit h).1, (pyIntL_of_isDigit h).2⟩

/-! ### Category-key resolution and the overlay store contract -/

/-- Python `str.lower()`, embedded as a character-wise map (the labels in
play are ASCII). -/
def pyLower (s : String) : String := ⟨s.data.map Char.toLower⟩

/-- `BlueprintManager.get_category_from_module_type`
(`blueprints_gui.py:661-678`): the fixed dictionary lookup with a
lower-cased fallback. -/
def get_category_from_module_type (module_type : String) : String :=
  let category_mapping : List (String × String) :=
    [("Ships", "ship_blueprints"),
     ("Capital Ships", "capital_ship_blueprints"),
     ("Components", "components"),
     ("Capital Components", "component_blueprints")]
  (alookup category_mapping module_type).getD (pyLower module_type)

/-- Modelled from the spec: `core.config.blueprint_config.update_blueprint_me`
is not under `src/` (only its callers are).  Spec §4.2 write path, steps 2-3:
if the overlay has no record for (category, name), create one with the edited
field set and all other fields at their defaults
(`owned=false, invented=false, me=0, te=0`); else update only the edited
field in place.  Validation (step 1) is performed by the callers in
`blueprints_gui.py`, which pass an already-validated value. -/
def update_blueprint_me (cfg : Cfg) (category name : String) (value : Int) : Cfg :=
  let rec0 : Record :=
    match lookup2 cfg category name with
    | some r => { r with me := value }
    | none => { owned := false, invented := false, me := value, te := 0 }
  write2 cfg category name rec0

/-- Modelled from the spec: `core.config.blueprint_config.update_blueprint_te`
(missing from `src/`); spec §4.2 write path, steps 2-3, for the TE field. -/
def update_blueprint_te (cfg : Cfg) (category name : String) (value : Int) : Cfg :=
  let rec0 : Record :=
    match lookup2 cfg category name with
    | some r => { r with te := value }
    | none => { owned := false, invented := false, me := 0, te := value }
  write2 cfg category name rec0

/-- Modelled from the spec: `core.config.blueprint_config.update_blueprint_ownership`
(missing from `src/`); spec §4.2 write path, steps 2-3, for the ownership
field.  Callers pass `"Owned"`/`"Unowned"` (spec §6), so the stored boolean
is `value == "Owned"`. -/
def update_blueprint_ownership (cfg : Cfg) (category name : String) (value : String) : Cfg :=
  let isOwned := value = "Owned"
  let rec0 : Record :=
    match lookup2 cfg category name with
    | some r => { r with owned := isOwned }
    | none => { owned := isOwned, invented := false, me := 0, te := 0 }
  write2 cfg category name rec0

/-- `BlueprintManager.validate_me` (`blueprints_gui.py:1194-1221`): parse the
entry text as an integer, clamp to `[0, 10]`, write it through
`update_blueprint_me`; a `ValueError` (non-numeric text) resets the stored
value to 0.  The widget update and the `refresh_registry_if_needed` call
touch only presentation mirrors, not the overlay, and are omitted here. -/
def validate_me (cfg : Cfg) (category module_name : String) (entryText : String) : Cfg :=
  match pyInt entryText with
  | some v =>
    let me_value : Int := if v < 0 then 0 else if v > 10 then 10 else v
    update_blueprint_me cfg category module_name me_value
  | none => update_blueprint_me cfg category module_name 0

/-- `BlueprintManager.validate_te` (`blueprints_gui.py:1223-1250`): as
`validate_me` with range `[0, 20]`. -/
def validate_te (cfg : Cfg) (category module_name : String) (entryText : String) : Cfg :=
  match pyInt entryText with
  | some v =>
    let te_value : Int := if v < 0 then 0 else if v > 20 then 20 else v
    update_blueprint_te cfg category module_name te_value
  | none => update_blueprint_te cfg category module_name 0

theorem lookup2_update_blueprint_me (cfg : Cfg) (c n : String) (v : Int) :
    (lookup2 (update_blueprint_me cfg c n v) c n).map Record.me = some v := by
  unfold update_blueprint_me
  rw [lookup2_write2_self]
  cases lookup2 cfg c n <;> rfl

theorem lookup2_update_blueprint_te (cfg : Cfg) (c n : String) (v : Int) :
    (lookup2 (update_blueprint_te cfg c n v) c n).map Record.te = some v := by
  unfold update_blueprint_te
  rw [lookup2_write2_self]
  cases lookup2 cfg c n <;> rfl

/-- Modelled from the spec: the entity classes (`core/models.py`) are not
under `src/`; spec §3 lists the attributes the registry and overlay code
reads — `name`, `display_name`, `faction`, `ship_type`, the cached
`owned_status` mirror (boolean, or a legacy string), and the
`is_capital_ship` flag. -/
structure ShipModule where
  name : String
  display_name : String
  faction : String
  ship_type : String
  owned_status : PyOwned
  is_capital_ship : Bool
deriving Repr, DecidableEq

/-- The ship-category selection of `BlueprintManager.update_ship_ownership`
(`blueprints_gui.py:1149-1152`): capital-flagged ships route to
`capital_ship_blueprints`, others to `ship_blueprints`. -/
def ship_config_category (m : ShipModule) : String :=
  if m.is_capital_ship then "capital_ship_blueprints" else "ship_blueprints"

/-! ### Python truthiness helpers used by the registry filters -/

/-- Python truthiness of an optional string argument (`not faction`):
`None` and the empty string are falsy. -/
def pyFalsyOpt : Option String → Bool
  | none => true
  | some s => s.isEmpty

/-- The ownership predicate of `ModuleRegistry.get_ships_by_filter`
(`module_registry.py:292-294`): a boolean `owned_status` counts when true,
a legacy string counts when it equals `"owned"` case-insensitively. -/
def ownedTruthy : PyOwned → Bool
  | .bool b => b
  | .str s => s.toLower == "owned"

deriving instance DecidableEq for Except

/-- A module object as the blueprint GUI sees it (`discovered_modules`
values): the cached mirror fields and the attached Tk variables.  `none`
embeds an absent attribute (Python `hasattr` is `Option.isSome`);
`some (.error ())` on `ownership_var` embeds a `.get()` call that raises. -/
structure GuiModule where
  display_name : String := ""
  ownership_var : Option (Except Unit String) := none
  invented_var : Option Bool := none
  me_var : Option String := none
  te_var : Option String := none
  owned_status : Option PyOwned := none
  blueprint_owned : Option Bool := none
deriving Repr, DecidableEq

/-- `ModuleRegistry` (`module_registry.py:11-34`), restricted to the
collections the verified operations touch.  Python `dict`s become
association lists, the `factions`/`ship_types` sets become duplicate-free
lists seeded with `"All"`. -/
structure ModuleRegistry where
  ships : List (String × ShipModule) := []
  capital_ships : List (String × ShipModule) := []
  factions : List String := ["All"]
  ship_types : List String := ["All"]
deriving Repr, DecidableEq

/-- `ModuleRegistry.register_ship` (`module_registry.py:36-51`): store by
`name` (overwrite on duplicate), union non-empty faction/ship type into the
derived filter sets. -/
def register_ship (r : ModuleRegistry) (ship : ShipModule) : ModuleRegistry :=
  let r := { r with ships := aupdate r.ships ship.name ship }
  let r :=
    if !ship.faction.isEmpty && !r.factions.contains ship.faction then
      { r with factions := r.factions ++ [ship.faction] }
    else r
  if !ship.ship_type.isEmpty && !r.ship_types.contains ship.ship_type then
    { r with ship_types := r.ship_types ++ [ship.ship_type] }
  else r

/-- `ModuleRegistry.register_capital_ship` (`module_registry.py:53-68`). -/
def register_capital_ship (r : ModuleRegistry) (ship : ShipModule) : ModuleRegistry :=
  let r := { r with capital_ships := aupdate r.capital_ships ship.name ship }
  let r :=
    if !ship.faction.isEmpty && !r.factions.contains ship.faction then
      { r with factions := r.factions ++ [ship.faction] }
    else r
  if !ship.ship_type.isEmpty && !r.ship_types.contains ship.ship_type then
    { r with ship_types := r.ship_types ++ [ship.ship_type] }
  else r

/-- The filter predicate of `get_ships_by_filter`
(`module_registry.py:289-294`), one ship at a time. -/
def shipFilterPred (faction ship_type : Option String) (owned_only : Bool)
    (ship : ShipModule) : Bool :=
  (pyFalsyOpt faction || faction == some "All" || some ship.faction == faction)
  && (pyFalsyOpt ship_type || ship_type == some "All" || some ship.ship_type == ship_type)
  && (!owned_only || ownedTruthy ship.owned_status)

/-- `ModuleRegistry.get_ships_by_filter` (`module_registry.py:277-294`). -/
def get_ships_by_filter (r : ModuleRegistry) (faction ship_type : Option String)
    (owned_only : Bool) : List ShipModule :=
  (r.ships.map Prod.snd).filter (shipFilterPred faction ship_type owned_only)

/-- `ModuleRegistry.get_capital_ships_by_filter` (`module_registry.py:296-313`). -/
def get_capital_ships_by_filter (r : ModuleRegistry) (faction ship_type : Option String)
    (owned_only : Bool) : List ShipModule :=
  (r.capital_ships.map Prod.snd).filter (shipFilterPred faction ship_type owned_only)

/-- `ModuleRegistry.get_ship_by_display_name` (`module_registry.py:354-364`):
first match in iteration order. -/
def get_ship_by_display_name (r : ModuleRegistry) (display_name : String) :
    Option ShipModule :=
  (r.ships.map Prod.snd).find? (fun ship => ship.display_name == display_name)

/-- `ModuleRegistry.get_capital_ship_by_display_name`
(`module_registry.py:366-376`). -/
def get_capital_ship_by_display_name (r : ModuleRegistry) (display_name : String) :
    Option ShipModule :=
  (r.capital_ships.map Prod.snd).find? (fun ship => ship.display_name == display_name)

/-- `ModuleRegistry.get_ship_by_display_name_combined`
(`module_registry.py:378-394`): try regular ships first, fall back to
capital ships.  The Python `if ship:` test is object truthiness, which is
always true for a module instance, so it is embedded as `Option` matching. -/
def get_ship_by_display_name_combined (r : ModuleRegistry) (display_name : String) :
    Option ShipModule :=
  match get_ship_by_display_name r display_name with
  | some ship => some ship
  | none => get_capital_ship_by_display_name r display_name

/-! ### The reconciliation read path (`refresh_registry_if_needed`) -/

/-- The `initial_load` registry loop of `refresh_registry_if_needed`
(`blueprints_gui.py:1259-1269`), one registry entry at a time: copy the
overlay record's `owned` into the cached `owned_status` when a record under
the given category exists for the entry's name. -/
def refreshShipFromConfig (cfg : Cfg) (category ship_name : String) (ship : ShipModule) :
    ShipModule :=
  match lookup2 cfg category ship_name with
  | some r => { ship with owned_status := .bool r.owned }
  | none => ship

/-- The cached-field update of the `discovered_modules` loop
(`blueprints_gui.py:1281-1284`): write the overlay `owned` flag into
`owned_status` when the module exposes it, else into `blueprint_owned`
when the module exposes that instead. -/
def applyOwnedFlag (m : GuiModule) (is_owned : Bool) : GuiModule :=
  if m.owned_status.isSome then { m with owned_status := some (.bool is_owned) }
  else if m.blueprint_owned.isSome then { m with blueprint_owned := some is_owned }
  else m

/-- The UI-variable update of the `discovered_modules` loop
(`blueprints_gui.py:1287-1291`): only on initial load, and only when the
module has an `ownership_var`. -/
def refreshVar (initial_load : Bool) (m : GuiModule) (is_owned : Bool) : GuiModule :=
  if initial_load && m.ownership_var.isSome then
    { m with ownership_var := some (.ok (if is_owned then "owned" else "unowned")) }
  else m

/-- One module of the `discovered_modules` loop of
`refresh_registry_if_needed` (`blueprints_gui.py:1273-1291`). -/
def refreshModule (cfg : Cfg) (initial_load : Bool) (config_category module_name : String)
    (m : GuiModule) : GuiModule :=
  match lookup2 cfg config_category module_name with
  | some r => refreshVar initial_load (applyOwnedFlag m r.owned) r.owned
  | none => m

/-- `BlueprintManager.refresh_registry_if_needed`
(`blueprints_gui.py:1252-1291`): the reconciliation read path over the
registry (on initial load) and the discovered modules. -/
def refresh_registry_if_needed (initial_load : Bool) (registry : ModuleRegistry)
    (dm : List (String × List (String × GuiModule))) (cfg : Cfg) :
    ModuleRegistry × List (String × List (String × GuiModule)) :=
  let registry :=
    if initial_load then
      { registry with
        ships := registry.ships.map
          (fun e => (e.1, refreshShipFromConfig cfg "ship_blueprints" e.1 e.2)),
        capital_ships := registry.capital_ships.map
          (fun e => (e.1, refreshShipFromConfig cfg "capital_ship_blueprints" e.1 e.2)) }
    else registry
  let dm := dm.map fun cm =>
    (cm.1, cm.2.map
      (fun e => (e.1, refreshModule cfg initial_load (get_category_from_module_type cm.1) e.1 e.2)))
  (registry, dm)

/-! ### The single-edit write paths -/

/-- `BlueprintManager.update_ship_ownership` (`blueprints_gui.py:1146-1164`):
pick the category from the `is_capital_ship` flag, store
`"Owned"`/`"Unowned"` through `update_blueprint_ownership`, and mirror the
boolean onto the module's `owned_status`. -/
def update_ship_ownership (cfg : Cfg) (module_name : String) (m : ShipModule)
    (value : String) : Cfg × ShipModule :=
  let category := ship_config_category m
  let config_value := if value = "owned" then "Owned" else "Unowned"
  let cfg' := update_blueprint_ownership cfg category module_name config_value
  (cfg', { m with owned_status := .bool (config_value = "Owned") })

/-- `BlueprintManager.update_component_ownership`
(`blueprints_gui.py:1166-1178`): fixed category `components`. -/
def update_component_ownership (cfg : Cfg) (module_name : String) (m : GuiModule)
    (value : String) : Cfg × GuiModule :=
  let config_value := if value = "owned" then "Owned" else "Unowned"
  let cfg' := update_blueprint_ownership cfg "components" module_name config_value
  (cfg', { m with owned_status := some (.bool (config_value = "Owned")) })

/-- `BlueprintManager.update_cap_component_ownership`
(`blueprints_gui.py:1180-1192`): fixed category `component_blueprints`. -/
def update_cap_component_ownership (cfg : Cfg) (module_name : String) (m : GuiModule)
    (value : String) : Cfg × GuiModule :=
  let config_value := if value = "owned" then "Owned" else "Unowned"
  let cfg' := update_blueprint_ownership cfg "component_blueprints" module_name config_value
  (cfg', { m with owned_status := some (.bool (config_value = "Owned")) })

/-- C1: a single-field ME edit committed through `validate_me` stores
`clamp(v, 0, 10)` for numeric input `v` and `0` for non-numeric input;
a TE edit through `validate_te` stores `clamp(v, 0, 20)` / `0`; for every
category, entity name and prior overlay state. -/
theorem me_te_edit_stores_clamped_value (cfg : Cfg) (category name entryText : String) :
    (lookup2 (validate_me cfg category name entryText) category name).map Record.me
      = some (match pyInt entryText with
              | some v => min (max v 0) 10
              | none => 0)
    ∧ (lookup2 (validate_te cfg category name entryText) category name).map Record.te
      = some (match pyInt entryText with
              | some v => min (max v 0) 20
              | none => 0) := by
  constructor
  · unfold validate_me
    cases hp : pyInt entryText with
    | none => simpa using lookup2_update_blueprint_me cfg category name 0
    | some v =>
      have := lookup2_update_blueprint_me cfg category name
        (if v < 0 then 0 else if v > 10 then 10 else v)
      simp only [this]
      congr 1
      simp only [min_def, max_def]
      split_ifs <;> omega
  · unfold validate_te
    cases hp : pyInt entryText with
    | none => simpa using lookup2_update_blueprint_te cfg category name 0
    | some v =>
      have := lookup2_update_blueprint_te cfg category name
        (if v < 0 then 0 else if v > 20 then 20 else v)
      simp only [this]
      congr 1
      simp only [min_def, max_def]
      split_ifs <;> omega

/-- C4: category-key resolution is the fixed total function of the spec's
table, with every unknown label mapped to its own lower-cased text; and a
ship entity resolves to `capital_ship_blueprints` exactly when its
`is_capital_ship` flag is set, else `ship_blueprints`. -/
theorem category_resolution_total :
    (∀ s : String, get_category_from_module_type s =
      if s = "Ships" then "ship_blueprints"
      else if s = "Capital Ships" then "capital_ship_blueprints"
      else if s = "Components" then "components"
      else if s = "Capital Components" then "component_blueprints"
      else pyLower s)
    ∧ ∀ m : ShipModule, ship_config_category m =
        if m.is_capital_ship then "capital_ship_blueprints" else "ship_blueprints" := by
  constructor
  · intro s
    by_cases h1 : s = "Ships"
    · subst h1; rfl
    by_cases h2 : s = "Capital Ships"
    · subst h2; rfl
    by_cases h3 : s = "Components"
    · subst h3; rfl
    by_cases h4 : s = "Capital Components"
    · subst h4; rfl
    have n1 : ¬("Ships" = s) := fun hh => h1 hh.symm
    have n2 : ¬("Capital Ships" = s) := fun hh => h2 hh.symm
    have n3 : ¬("Components" = s) := fun hh => h3 hh.symm
    have n4 : ¬("Capital Components" = s) := fun hh => h4 hh.symm
    simp [get_category_from_module_type, alookup, h1, h2, h3, h4, n1, n2, n3, n4]
  · intro m
    rfl

theorem factionCond_iff (f : Option String) (x : String) :
    (pyFalsyOpt f || f == some "All" || some x == f) = true ↔
      (f = none ∨ f = some "" ∨ f = some "All" ∨ f = some x) := by
  cases f with
  | none => simp [pyFalsyOpt]
  | some s =>
    simp only [pyFalsyOpt, Bool.or_eq_true, beq_iff_eq, Option.some.injEq,
      String.isEmpty_iff, reduceCtorEq, false_or]
    constructor
    · rintro ((h | h) | h)
      · exact Or.inl h
      · exact Or.inr (Or.inl h)
      · exact Or.inr (Or.inr h.symm)
    · rintro (h | h | h)
      · exact Or.inl (Or.inl h)
      · exact Or.inl (Or.inr h)
      · exact Or.inr h.symm

theorem ownedTruthy_iff (o : PyOwned) :
    ownedTruthy o = true ↔
      (o = .bool true ∨ ∃ s, o = .str s ∧ s.toLower = "owned") := by
  cases o with
  | bool b => simp [ownedTruthy]
  | str s => simp [ownedTruthy]

theorem ownedOnlyCond_iff (owned_only : Bool) (o : PyOwned) :
    (!owned_only || ownedTruthy o) = true ↔
      (owned_only = true →
        (o = .bool true ∨ ∃ s, o = .str s ∧ s.toLower = "owned")) := by
  cases owned_only <;> simp [ownedTruthy_iff]

/-- C5: `get_ships_by_filter` returns exactly the registered ships whose
faction matches (or the filter is absent — Python-falsy `None`/`""` — or
`"All"`), whose ship type matches likewise, and which, when `owned_only`
is set, are owned under either the boolean or the case-insensitive string
`"owned"` representation of `owned_status`. -/
theorem get_ships_by_filter_exact (r : ModuleRegistry) (faction ship_type : Option String)
    (owned_only : Bool) (ship : ShipModule) :
    ship ∈ get_ships_by_filter r faction ship_type owned_only ↔
      ship ∈ r.ships.map Prod.snd
      ∧ (faction = none ∨ faction = some "" ∨ faction = some "All"
          ∨ faction = some ship.faction)
      ∧ (ship_type = none ∨ ship_type = some "" ∨ ship_type = some "All"
          ∨ ship_type = some ship.ship_type)
      ∧ (owned_only = true →
          (ship.owned_status = .bool true
            ∨ ∃ s, ship.owned_status = .str s ∧ s.toLower = "owned")) := by
  unfold get_ships_by_filter
  rw [List.mem_filter]
  refine and_congr_right fun _ => ?_
  unfold shipFilterPred
  simp only [Bool.and_eq_true, factionCond_iff, ownedOnlyCond_iff, and_assoc]

theorem find?_eq_some_of_exists {α : Type} (p : α → Bool) (l : List α)
    (h : ∃ a ∈ l, p a = true) :
    ∃ a, l.find? p = some a ∧ a ∈ l ∧ p a = true := by
  induction l with
  | nil => simp at h
  | cons x t ih =>
    cases hpx : p x with
    | true => exact ⟨x, by simp [List.find?, hpx], List.mem_cons_self x t, hpx⟩
    | false =>
      obtain ⟨a, ha, hpa⟩ := h
      rcases List.mem_cons.mp ha with rfl | hat
      · rw [hpx] at hpa; cases hpa
      · obtain ⟨b, hb1, hb2, hb3⟩ := ih ⟨a, hat, hpa⟩
        exact ⟨b, by simp [List.find?, hpx, hb1], List.mem_cons_of_mem _ hb2, hb3⟩

/-- C10: the combined display-name lookup returns a matching regular ship
whenever one exists (so a regular ship wins over a capital ship sharing the
display name), and falls back to the capital-ship lookup exactly when no
regular ship matches. -/
theorem combined_display_name_prefers_regular (r : ModuleRegistry) (d : String) :
    (∀ s, get_ship_by_display_name r d = some s →
        get_ship_by_display_name_combined r d = some s)
    ∧ ((∃ s ∈ r.ships.map Prod.snd, s.display_name = d) →
        ∃ s, get_ship_by_display_name_combined r d = some s
          ∧ s ∈ r.ships.map Prod.snd ∧ s.display_name = d)
    ∧ (get_ship_by_display_name r d = none →
        get_ship_by_display_name_combined r d = get_capital_ship_by_display_name r d) := by
  refine ⟨?_, ?_, ?_⟩
  · intro s h
    unfold get_ship_by_display_name_combined
    rw [h]
  · rintro ⟨s, hs, hd⟩
    obtain ⟨b, hb1, hb2, hb3⟩ :=
      find?_eq_some_of_exists (fun ship => ship.display_name == d) _ ⟨s, hs, by simp [hd]⟩
    refine ⟨b, ?_, hb2, by simpa using hb3⟩
    unfold get_ship_by_display_name_combined get_ship_by_display_name
    rw [hb1]
  · intro h
    unfold get_ship_by_display_name_combined
    rw [h]

theorem combined_display_name_prefers_regular_witness :
    ∃ s, get_ship_by_display_name_combined
        (ModuleRegistry.mk [("alpha", ⟨"alpha", "X", "Caldari", "Frigate", .bool false, false⟩)]
          [("beta", ⟨"beta", "X", "Caldari", "Carrier", .bool false, true⟩)] ["All"] ["All"])
        "X" = some s
      ∧ s ∈ ((ModuleRegistry.mk
          [("alpha", ⟨"alpha", "X", "Caldari", "Frigate", .bool false, false⟩)]
          [("beta", ⟨"beta", "X", "Caldari", "Carrier", .bool false, true⟩)]
          ["All"] ["All"]).ships.map Prod.snd)
      ∧ s.display_name = "X" :=
  (combined_display_name_prefers_regular _ "X").2.1
    ⟨⟨"alpha", "X", "Caldari", "Frigate", .bool false, false⟩, by decide, rfl⟩

theorem refreshVar_owned_status (il : Bool) (m : GuiModule) (o : Bool) :
    (refreshVar il m o).owned_status = m.owned_status := by
  unfold refreshVar; split <;> rfl

theorem refreshVar_blueprint_owned (il : Bool) (m : GuiModule) (o : Bool) :
    (refreshVar il m o).blueprint_owned = m.blueprint_owned := by
  unfold refreshVar; split <;> rfl

/-- C9: when a (category, name) pair is present in both the overlay and the
module set, the reconciliation read path copies the record's `owned` flag
into exactly one cached field — `owned_status` when the module exposes it
(leaving `blueprint_owned` untouched), else `blueprint_owned` when exposed
(leaving `owned_status` absent); never both. -/
theorem reconcile_updates_exactly_one_cached_field (cfg : Cfg) (initial_load : Bool)
    (cat name : String) (m : GuiModule) (r : Record)
    (h : lookup2 cfg (get_category_from_module_type cat) name = some r) :
    ((refreshModule cfg initial_load (get_category_from_module_type cat) name m).owned_status
      = if m.owned_status.isSome then some (.bool r.owned) else m.owned_status)
    ∧ ((refreshModule cfg initial_load (get_category_from_module_type cat) name m).blueprint_owned
      = if m.owned_status.isSome then m.blueprint_owned
        else if m.blueprint_owned.isSome then some r.owned else m.blueprint_owned) := by
  unfold refreshModule
  rw [h]
  rw [refreshVar_owned_status, refreshVar_blueprint_owned]
  unfold applyOwnedFlag
  constructor <;> split_ifs <;> simp

/-! ### Reset-all-ownership (`reset_all_ship_ownership`) -/

/-- Clearing the `owned` field of an overlay record, as in
`blueprints_gui.py:1085-1086` / `1095-1096`. -/
def unOwn (r : Record) : Record := { r with owned := false }

/-- The per-ship overlay write of `reset_all_ship_ownership`
(`blueprints_gui.py:1084-1086`): zero `owned` only when the category map
and the record already exist. -/
def zeroOwnedIfPresent (cfg : Cfg) (category name : String) : Cfg :=
  match lookup2 cfg category name with
  | some r => write2 cfg category name (unOwn r)
  | none => cfg

/-- `BlueprintManager.reset_all_ship_ownership`
(`blueprints_gui.py:1075-1112`): set `owned_status = False` on every
registered ship and capital ship and zero the `owned` field of the
corresponding `ship_blueprints`/`capital_ship_blueprints` record when one
exists.  The in-place mutation of registry values while iterating is
rendered as a value map plus an overlay fold (the two effects are on
disjoint state). -/
def reset_all_ship_ownership (registry : ModuleRegistry) (cfg : Cfg) :
    ModuleRegistry × Cfg :=
  let ships' := registry.ships.map
    (fun e => (e.1, { e.2 with owned_status := PyOwned.bool false }))
  let cfg := registry.ships.foldl
    (fun acc e => zeroOwnedIfPresent acc "ship_blueprints" e.1) cfg
  let capitals' := registry.capital_ships.map
    (fun e => (e.1, { e.2 with owned_status := PyOwned.bool false }))
  let cfg := registry.capital_ships.foldl
    (fun acc e => zeroOwnedIfPresent acc "capital_ship_blueprints" e.1) cfg
  ({ registry with ships := ships', capital_ships := capitals' }, cfg)

theorem lookup2_zeroOwnedIfPresent (cfg : Cfg) (c n c' n' : String) :
    lookup2 (zeroOwnedIfPresent cfg c n) c' n'
      = if c' = c ∧ n' = n then (lookup2 cfg c n).map unOwn
        else lookup2 cfg c' n' := by
  unfold zeroOwnedIfPresent
  cases hl : lookup2 cfg c n with
  | none =>
    by_cases hcn : c' = c ∧ n' = n
    · rw [if_pos hcn, hcn.1, hcn.2, hl]
      rfl
    · rw [if_neg hcn]
  | some r =>
    by_cases hcn : c' = c ∧ n' = n
    · rw [if_pos hcn, hcn.1, hcn.2, lookup2_write2_self]
      rfl
    · rw [if_neg hcn]
      exact lookup2_write2_ne cfg c n c' n' (unOwn r) hcn

theorem unOwn_idem (r : Record) : unOwn (unOwn r) = unOwn r := rfl

theorem lookup2_zeroOwned_foldl (names : List (String × ShipModule)) (cfg : Cfg)
    (cat c' n' : String) :
    lookup2 (names.foldl (fun acc e => zeroOwnedIfPresent acc cat e.1) cfg) c' n'
      = if c' = cat ∧ n' ∈ names.map Prod.fst then (lookup2 cfg cat n').map unOwn
        else lookup2 cfg c' n' := by
  induction names generalizing cfg with
  | nil => simp
  | cons x t ih =>
    rw [List.foldl_cons, ih]
    by_cases hc : c' = cat
    · subst hc
      by_cases ht : n' ∈ t.map Prod.fst
      · rw [if_pos ⟨rfl, ht⟩, if_pos ⟨rfl, List.mem_cons_of_mem _ ht⟩]
        rw [lookup2_zeroOwnedIfPresent]
        by_cases hx : n' = x.1
        · subst hx
          rw [if_pos ⟨rfl, rfl⟩, Option.map_map]
          cases lookup2 cfg c' x.1 <;> simp [Function.comp, unOwn_idem]
        · rw [if_neg (fun hh => hx hh.2)]
      · rw [if_neg (fun hh => ht hh.2)]
        rw [lookup2_zeroOwnedIfPresent]
        by_cases hx : n' = x.1
        · subst hx
          rw [if_pos ⟨rfl, rfl⟩, if_pos ⟨rfl, List.mem_cons_self _ _⟩]
        · rw [if_neg (fun hh => hx hh.2), if_neg]
          intro hh
          rcases List.mem_cons.mp hh.2 with h1 | h1
          · exact hx h1
          · exact ht h1
    · rw [if_neg (fun hh => hc hh.1), if_neg (fun hh => hc hh.1)]
      rw [lookup2_zeroOwnedIfPresent, if_neg (fun hh => hc hh.1)]

theorem lookup2_reset (registry : ModuleRegistry) (cfg : Cfg) (c n : String) :
    lookup2 (reset_all_ship_ownership registry cfg).2 c n
      = if c = "capital_ship_blueprints" ∧ n ∈ registry.capital_ships.map Prod.fst then
          (lookup2 cfg c n).map unOwn
        else if c = "ship_blueprints" ∧ n ∈ registry.ships.map Prod.fst then
          (lookup2 cfg c n).map unOwn
        else lookup2 cfg c n := by
  unfold reset_all_ship_ownership
  simp only [lookup2_zeroOwned_foldl]
  by_cases hcap : c = "capital_ship_blueprints" ∧ n ∈ registry.capital_ships.map Prod.fst
  · obtain ⟨hc1, hc2⟩ := hcap
    subst hc1
    have hne : ¬("capital_ship_blueprints" = "ship_blueprints"
        ∧ n ∈ registry.ships.map Prod.fst) := fun hh => absurd hh.1 (by decide)
    rw [if_pos ⟨rfl, hc2⟩, if_neg hne, if_pos ⟨rfl, hc2⟩]
  · rw [if_neg hcap, if_neg hcap]
    by_cases hship : c = "ship_blueprints" ∧ n ∈ registry.ships.map Prod.fst
    · obtain ⟨hs1, hs2⟩ := hship
      subst hs1
      rw [if_pos ⟨rfl, hs2⟩]
    · rw [if_neg hship, if_neg hship]

theorem alookup_map_keyed {α β : Type} (l : List (String × α)) (f : String → α → β)
    (k : String) :
    alookup (l.map (fun e => (e.1, f e.1 e.2))) k = (alookup l k).map (f k) := by
  induction l with
  | nil => rfl
  | cons x t ih =>
    by_cases hk : x.1 = k
    · subst hk
      simp [alookup]
    · simp [alookup, hk, ih]

theorem lookup2_update_blueprint_ownership_owned (cfg : Cfg) (c n v : String) :
    (lookup2 (update_blueprint_ownership cfg c n v) c n).map Record.owned
      = some (decide (v = "Owned")) := by
  unfold update_blueprint_ownership
  rw [lookup2_write2_self]
  cases lookup2 cfg c n <;> rfl

theorem refresh_ships_alookup (cfg : Cfg) (reg : ModuleRegistry)
    (dm : List (String × List (String × GuiModule))) (k : String) :
    alookup ((refresh_registry_if_needed true reg dm cfg).1.ships) k
      = (alookup reg.ships k).map
          (fun s => refreshShipFromConfig cfg "ship_blueprints" k s) := by
  unfold refresh_registry_if_needed
  simp only [if_pos]
  exact alookup_map_keyed reg.ships (fun nm s => refreshShipFromConfig cfg "ship_blueprints" nm s) k

theorem refresh_capital_ships_alookup (cfg : Cfg) (reg : ModuleRegistry)
    (dm : List (String × List (String × GuiModule))) (k : String) :
    alookup ((refresh_registry_if_needed true reg dm cfg).1.capital_ships) k
      = (alookup reg.capital_ships k).map
          (fun s => refreshShipFromConfig cfg "capital_ship_blueprints" k s) := by
  unfold refresh_registry_if_needed
  simp only [if_pos]
  exact alookup_map_keyed reg.capital_ships
    (fun nm s => refreshShipFromConfig cfg "capital_ship_blueprints" nm s) k

theorem refreshShip_after_own (cfg : Cfg) (cat n : String) (s : ShipModule) :
    (refreshShipFromConfig (update_blueprint_ownership cfg cat n "Owned") cat n s).owned_status
      = .bool true := by
  unfold refreshShipFromConfig
  have h := lookup2_update_blueprint_ownership_owned cfg cat n "Owned"
  cases hl : lookup2 (update_blueprint_ownership cfg cat n "Owned") cat n with
  | none => rw [hl] at h; simp at h
  | some rec =>
    rw [hl] at h
    simp only [Option.map_some', Option.some.injEq, decide_eq_true_eq] at h
    simp [h]

theorem ship_config_category_of_regular {s : ShipModule} (h : s.is_capital_ship = false) :
    ship_config_category s = "ship_blueprints" := by
  simp [ship_config_category, h]

theorem ship_config_category_of_capital {s : ShipModule} (h : s.is_capital_ship = true) :
    ship_config_category s = "capital_ship_blueprints" := by
  simp [ship_config_category, h]

/-- C8: registering an entity, editing its ownership to `"owned"` through
the write path, and running the reconciliation read path yields a cached
`owned_status` of `true` — for regular ships and capital ships (through the
registry loops of `refresh_registry_if_needed`, the registered entry being
the one the edit mutated), and for components and capital components
(through the `discovered_modules` loop; for capital components the overlay
must have no record under the never-written fallback category
`capital_components`). -/
theorem ownership_edit_roundtrip :
    (∀ (r0 : ModuleRegistry) (dm : List (String × List (String × GuiModule)))
        (cfg0 : Cfg) (ship : ShipModule), ship.is_capital_ship = false →
      (alookup ((refresh_registry_if_needed true
          { register_ship r0 ship with
            ships := aupdate (register_ship r0 ship).ships ship.name
              (update_ship_ownership cfg0 ship.name ship "owned").2 }
          dm (update_ship_ownership cfg0 ship.name ship "owned").1).1.ships)
        ship.name).map ShipModule.owned_status = some (.bool true))
    ∧ (∀ (r0 : ModuleRegistry) (dm : List (String × List (String × GuiModule)))
        (cfg0 : Cfg) (ship : ShipModule), ship.is_capital_ship = true →
      (alookup ((refresh_registry_if_needed true
          { register_capital_ship r0 ship with
            capital_ships := aupdate (register_capital_ship r0 ship).capital_ships ship.name
              (update_ship_ownership cfg0 ship.name ship "owned").2 }
          dm (update_ship_ownership cfg0 ship.name ship "owned").1).1.capital_ships)
        ship.name).map ShipModule.owned_status = some (.bool true))
    ∧ (∀ (cfg0 : Cfg) (name : String) (m : GuiModule) (initial_load : Bool),
      (refreshModule (update_component_ownership cfg0 name m "owned").1 initial_load
          (get_category_from_module_type "components") name
          (update_component_ownership cfg0 name m "owned").2).owned_status
        = some (.bool true))
    ∧ (∀ (cfg0 : Cfg) (name : String) (m : GuiModule) (initial_load : Bool),
      lookup2 cfg0 "capital_components" name = none →
      (refreshModule (update_cap_component_ownership cfg0 name m "owned").1 initial_load
          (get_category_from_module_type "capital_components") name
          (update_cap_component_ownership cfg0 name m "owned").2).owned_status
        = some (.bool true)) := by
  refine ⟨?_, ?_, ?_, ?_⟩
  · intro r0 dm cfg0 ship hcap
    rw [refresh_ships_alookup, alookup_aupdate_self, Option.map_some', Option.map_some',
      Option.some.injEq]
    show (refreshShipFromConfig
        (update_blueprint_ownership cfg0 (ship_config_category ship) ship.name
          (if ("owned" : String) = "owned" then "Owned" else "Unowned"))
        "ship_blueprints" ship.name _).owned_status = _
    rw [if_pos rfl, ship_config_category_of_regular hcap]
    exact refreshShip_after_own cfg0 "ship_blueprints" ship.name _
  · intro r0 dm cfg0 ship hcap
    rw [refresh_capital_ships_alookup, alookup_aupdate_self, Option.map_some',
      Option.map_some', Option.some.injEq]
    show (refreshShipFromConfig
        (update_blueprint_ownership cfg0 (ship_config_category ship) ship.name
          (if ("owned" : String) = "owned" then "Owned" else "Unowned"))
        "capital_ship_blueprints" ship.name _).owned_status = _
    rw [if_pos rfl, ship_config_category_of_capital hcap]
    exact refreshShip_after_own cfg0 "capital_ship_blueprints" ship.name _
  · intro cfg0 name m initial_load
    have hcat : get_category_from_module_type "components" = "components" := by decide
    have hcfg : (update_component_ownership cfg0 name m "owned").1
        = update_blueprint_ownership cfg0 "components" name "Owned" := rfl
    have hm : (update_component_ownership cfg0 name m "owned").2
        = { m with owned_status := some (.bool true) } := rfl
    unfold refreshModule
    rw [hcat, hcfg, hm]
    have h := lookup2_update_blueprint_ownership_owned cfg0 "components" name "Owned"
    cases hl : lookup2 (update_blueprint_ownership cfg0 "components" name "Owned")
        "components" name with
    | none => rfl
    | some rec =>
      rw [hl] at h
      simp only [Option.map_some', Option.some.injEq, decide_eq_true_eq] at h
      rw [refreshVar_owned_status]
      simp [applyOwnedFlag, h]
  · intro cfg0 name m initial_load habsent
    have hcat : get_category_from_module_type "capital_components" = "capital_components" := by
      decide
    have hcfg : (update_cap_component_ownership cfg0 name m "owned").1
        = update_blueprint_ownership cfg0 "component_blueprints" name "Owned" := rfl
    have hm : (update_cap_component_ownership cfg0 name m "owned").2
        = { m with owned_status := some (.bool true) } := rfl
    have hsame : lookup2 (update_blueprint_ownership cfg0 "component_blueprints" name "Owned")
        "capital_components" name = none := by
      unfold update_blueprint_ownership
      rw [lookup2_write2_ne]
      · exact habsent
      · intro hh
        exact absurd hh.1 (by decide)
    unfold refreshModule
    rw [hcat, hcfg, hm, hsame]

theorem ownership_edit_roundtrip_witness :
    ((alookup ((refresh_registry_if_needed true
        { register_ship (ModuleRegistry.mk [] [] ["All"] ["All"])
            ⟨"raven", "Raven", "Caldari", "Battleship", .bool false, false⟩ with
          ships := aupdate (register_ship (ModuleRegistry.mk [] [] ["All"] ["All"])
              ⟨"raven", "Raven", "Caldari", "Battleship", .bool false, false⟩).ships "raven"
            (update_ship_ownership [] "raven"
              ⟨"raven", "Raven", "Caldari", "Battleship", .bool false, false⟩ "owned").2 }
        [] (update_ship_ownership [] "raven"
          ⟨"raven", "Raven", "Caldari", "Battleship", .bool false, false⟩ "owned").1).1.ships)
      "raven").map ShipModule.owned_status = some (.bool true)) :=
  ownership_edit_roundtrip.1 (ModuleRegistry.mk [] [] ["All"] ["All"]) [] []
    ⟨"raven", "Raven", "Caldari", "Battleship", .bool false, false⟩ rfl

/-- C6 (amended): after `reset_all_ship_ownership`, every registered ship
and capital ship has `owned_status = false`; the overlay records under
`ship_blueprints`/`capital_ship_blueprints` whose names are registered have
`owned = false` with `me`/`te` preserved; every other overlay datum — the
`me`/`te` of all records, records under other categories (components,
capital components), and ship-category records for names not in the
registry — is unchanged. -/
theorem reset_all_ship_ownership_amended (registry : ModuleRegistry) (cfg : Cfg) :
    (∀ e ∈ (reset_all_ship_ownership registry cfg).1.ships,
        e.2.owned_status = .bool false)
    ∧ (∀ e ∈ (reset_all_ship_ownership registry cfg).1.capital_ships,
        e.2.owned_status = .bool false)
    ∧ (∀ n, n ∈ registry.ships.map Prod.fst →
        lookup2 (reset_all_ship_ownership registry cfg).2 "ship_blueprints" n
          = (lookup2 cfg "ship_blueprints" n).map unOwn)
    ∧ (∀ n, n ∈ registry.capital_ships.map Prod.fst →
        lookup2 (reset_all_ship_ownership registry cfg).2 "capital_ship_blueprints" n
          = (lookup2 cfg "capital_ship_blueprints" n).map unOwn)
    ∧ (∀ c n, (lookup2 (reset_all_ship_ownership registry cfg).2 c n).map
          (fun r => (r.me, r.te))
        = (lookup2 cfg c n).map (fun r => (r.me, r.te)))
    ∧ (∀ c n, c ≠ "ship_blueprints" → c ≠ "capital_ship_blueprints" →
        lookup2 (reset_all_ship_ownership registry cfg).2 c n = lookup2 cfg c n)
    ∧ (∀ n, n ∉ registry.ships.map Prod.fst → n ∉ registry.capital_ships.map Prod.fst →
        ∀ c, lookup2 (reset_all_ship_ownership registry cfg).2 c n = lookup2 cfg c n) := by
  refine ⟨?_, ?_, ?_, ?_, ?_, ?_, ?_⟩
  · intro e he
    obtain ⟨a, _, rfl⟩ := List.mem_map.mp he
    rfl
  · intro e he
    obtain ⟨a, _, rfl⟩ := List.mem_map.mp he
    rfl
  · intro n hn
    rw [lookup2_reset, if_neg (fun hh => absurd hh.1 (by decide)), if_pos ⟨rfl, hn⟩]
  · intro n hn
    rw [lookup2_reset, if_pos ⟨rfl, hn⟩]
  · intro c n
    rw [lookup2_reset]
    split
    · cases lookup2 cfg c n <;> rfl
    · split
      · cases lookup2 cfg c n <;> rfl
      · rfl
  · intro c n h1 h2
    rw [lookup2_reset, if_neg (fun hh => h2 hh.1), if_neg (fun hh => h1 hh.1)]
  · intro n h1 h2 c
    rw [lookup2_reset, if_neg (fun hh => h2 hh.2), if_neg (fun hh => h1 hh.2)]

theorem reset_all_ship_ownership_amended_witness :
    lookup2 (reset_all_ship_ownership
        (ModuleRegistry.mk [("raven", ⟨"raven", "Raven", "Caldari", "Battleship",
          .bool true, false⟩)] [] ["All"] ["All"])
        [("ship_blueprints", [("raven", ⟨true, false, 7, 14⟩)])]).2
      "ship_blueprints" "raven" = some ⟨false, false, 7, 14⟩ := by
  have h := (reset_all_ship_ownership_amended
    (ModuleRegistry.mk [("raven", ⟨"raven", "Raven", "Caldari", "Battleship",
      .bool true, false⟩)] [] ["All"] ["All"])
    [("ship_blueprints", [("raven", ⟨true, false, 7, 14⟩)])]).2.2.1 "raven" (by decide)
  simpa using h

/-- C6 counterexample: an overlay record under `ship_blueprints` whose name
is not registered keeps `owned = true` after `reset_all_ship_ownership`,
contradicting "every present `ship_blueprints` overlay record has
`owned == false`". -/
theorem reset_leaves_unregistered_overlay_record_owned :
    (lookup2 (reset_all_ship_ownership (ModuleRegistry.mk [] [] ["All"] ["All"])
        [("ship_blueprints", [("Ghost", ⟨true, false, 1, 2⟩)])]).2
      "ship_blueprints" "Ghost").map Record.owned = some true := by decide

/-! ### Bulk save (`update_all_ownership_values`, `blueprints_gui.py:915-1073`)

The method makes three sequential passes over `discovered_modules`:
ownership (with invented/ME/TE snapshot writes), then ME, then TE.  Each
pass is embedded as a fold; the ME/TE passes also return the module list
because they normalize `me_var`/`te_var` to `"0"` on clamp or parse
failure.  The final `save_blueprint_ownership` flush is external; its
boolean result is threaded through as `flushOk`. -/

abbrev DiscoveredModules := List (String × List (String × GuiModule))

/-- The ME value the ownership pass snapshots
(`int(me_var.get()) if me_var and me_var.get().isdigit() else 0`,
`blueprints_gui.py:962`). -/
def isdigitVal (v : Option String) : Int :=
  match v with
  | some s => if pyIsDigit s then (pyInt s).getD 0 else 0
  | none => 0

/-- One module of the ownership pass (`blueprints_gui.py:925-989`).  The
`try/except` wraps the whole body starting at `ownership_var.get()`; a
raising or absent variable leaves the overlay untouched.  In the regular
branch the create and the update arm both end up writing all four record
fields. -/
def pass1Body (category_name category module_name : String) (m : GuiModule) (cfg : Cfg) :
    Cfg :=
  if category_name = "capital_components" then
    match m.ownership_var with
    | some (.ok v) =>
      let is_owned := v = "owned"
      match lookup2 cfg "component_blueprints" module_name with
      | none => write2 cfg "component_blueprints" module_name ⟨is_owned, false, 0, 0⟩
      | some r => write2 cfg "component_blueprints" module_name { r with owned := is_owned }
    | _ => cfg
  else
    match m.ownership_var with
    | some (.ok v) =>
      let is_owned := v = "owned"
      let is_invented := m.invented_var.getD false
      let me_value := isdigitVal m.me_var
      let te_value := isdigitVal m.te_var
      match lookup2 cfg category module_name with
      | none => write2 cfg category module_name ⟨is_owned, is_invented, me_value, te_value⟩
      | some _ => write2 cfg category module_name ⟨is_owned, is_invented, me_value, te_value⟩
    | _ => cfg

/-- One category of the ownership pass, with the
`if not category or not modules: continue` guard (`blueprints_gui.py:918-923`). -/
def pass1Cat (cfg : Cfg) (category_name : String) (mods : List (String × GuiModule)) : Cfg :=
  let category := get_category_from_module_type category_name
  if category.isEmpty || mods.isEmpty then cfg
  else mods.foldl (fun acc e => pass1Body category_name category e.1 e.2 acc) cfg

/-- The ownership pass (`blueprints_gui.py:918-989`). -/
def pass1 (dm : DiscoveredModules) (cfg : Cfg) : Cfg :=
  dm.foldl (fun acc cm => pass1Cat acc cm.1 cm.2) cfg

/-- One module of the ME pass (`blueprints_gui.py:994-1026`): parse
`me_var`, clamp negatives to 0 (resetting the variable), write through
`update_blueprint_me` — except capital components, written directly under
`component_blueprints`, where the `ValueError` arm only updates an already
present record and never creates one. -/
def pass2Body (category_name category module_name : String) (m : GuiModule) (cfg : Cfg) :
    GuiModule × Cfg :=
  match m.me_var with
  | none => (m, cfg)
  | some s =>
    match pyInt s with
    | some v =>
      let me_value : Int := if v < 0 then 0 else v
      let m' := if v < 0 then { m with me_var := some "0" } else m
      if category_name = "capital_components" then
        (m', match lookup2 cfg "component_blueprints" module_name with
          | none => write2 cfg "component_blueprints" module_name ⟨false, false, me_value, 0⟩
          | some r => write2 cfg "component_blueprints" module_name { r with me := me_value })
      else
        (m', update_blueprint_me cfg category module_name me_value)
    | none =>
      let m' := { m with me_var := some "0" }
      if category_name = "capital_components" then
        (m', match lookup2 cfg "component_blueprints" module_name with
          | some r => write2 cfg "component_blueprints" module_name { r with me := 0 }
          | none => cfg)
      else
        (m', update_blueprint_me cfg category module_name 0)

/-- One module of the TE pass (`blueprints_gui.py:1031-1063`), symmetric to
the ME pass. -/
def pass3Body (category_name category module_name : String) (m : GuiModule) (cfg : Cfg) :
    GuiModule × Cfg :=
  match m.te_var with
  | none => (m, cfg)
  | some s =>
    match pyInt s with
    | some v =>
      let te_value : Int := if v < 0 then 0 else v
      let m' := if v < 0 then { m with te_var := some "0" } else m
      if category_name = "capital_components" then
        (m', match lookup2 cfg "component_blueprints" module_name with
          | none => write2 cfg "component_blueprints" module_name ⟨false, false, 0, te_value⟩
          | some r => write2 cfg "component_blueprints" module_name { r with te := te_value })
      else
        (m', update_blueprint_te cfg category module_name te_value)
    | none =>
      let m' := { m with te_var := some "0" }
      if category_name = "capital_components" then
        (m', match lookup2 cfg "component_blueprints" module_name with
          | some r => write2 cfg "component_blueprints" module_name { r with te := 0 }
          | none => cfg)
      else
        (m', update_blueprint_te cfg category module_name 0)

/-- Fold a module-and-overlay pass body over one category's modules. -/
def passMods (body : String → String → String → GuiModule → Cfg → GuiModule × Cfg)
    (category_name category : String) :
    List (String × GuiModule) → Cfg → List (String × GuiModule) × Cfg
  | [], cfg => ([], cfg)
  | e :: t, cfg =>
    let mc := body category_name category e.1 e.2 cfg
    let tc := passMods body category_name category t mc.2
    ((e.1, mc.1) :: tc.1, tc.2)

/-- Fold a module-and-overlay pass over all categories (the ME/TE passes
have no skip-empty guard). -/
def passDm (body : String → String → String → GuiModule → Cfg → GuiModule × Cfg) :
    DiscoveredModules → Cfg → DiscoveredModules × Cfg
  | [], cfg => ([], cfg)
  | cm :: t, cfg =>
    let mc := passMods body cm.1 (get_category_from_module_type cm.1) cm.2 cfg
    let tc := passDm body t mc.2
    ((cm.1, mc.1) :: tc.1, tc.2)

/-- `BlueprintManager.update_all_ownership_values`
(`blueprints_gui.py:915-1073`): the three passes, then the external flush
whose boolean result is the method's return value. -/
def update_all_ownership_values (dm : DiscoveredModules) (cfg : Cfg) (flushOk : Bool) :
    DiscoveredModules × Cfg × Bool :=
  let cfg1 := pass1 dm cfg
  let dc2 := passDm pass2Body dm cfg1
  let dc3 := passDm pass3Body dc2.1 dc2.2
  (dc3.1, dc3.2, flushOk)

theorem reconcile_updates_exactly_one_cached_field_witness :
    ((refreshModule [("components", [("Gun", ⟨true, false, 3, 4⟩)])] true
        (get_category_from_module_type "Components") "Gun"
        { owned_status := some (.bool false) }).owned_status = some (.bool true))
    ∧ ((refreshModule [("components", [("Gun", ⟨true, false, 3, 4⟩)])] true
        (get_category_from_module_type "Components") "Gun"
        { owned_status := some (.bool false) }).blueprint_owned = none) := by
  have h := reconcile_updates_exactly_one_cached_field
    [("components", [("Gun", ⟨true, false, 3, 4⟩)])] true "Components" "Gun"
    { owned_status := some (.bool false) } ⟨true, false, 3, 4⟩ (by decide)
  exact ⟨by simpa using h.1, by simpa using h.2⟩

/-! ### A small algebra of overlay writes

Every overlay write the bulk passes perform is, at its (category, name)
key, either a create-or-update (present: set some fields; absent: create a
record that equals those fields applied to the all-default record) or a
conditional field update that skips absent records.  This section proves
the generic facts used to characterize and compare bulk runs. -/

/-- A partial field update of an overlay record: `some c` sets the field,
`none` keeps it. -/
structure FieldUpd where
  owned : Option Bool := none
  invented : Option Bool := none
  me : Option Int := none
  te : Option Int := none
deriving Repr, DecidableEq

def applyU (u : FieldUpd) (r : Record) : Record :=
  ⟨u.owned.getD r.owned, u.invented.getD r.invented, u.me.getD r.me, u.te.getD r.te⟩

/-- Left-biased choice; `ocomb later earlier` lets the later write win. -/
def ocomb {α : Type} (a b : Option α) : Option α :=
  match a with
  | some x => some x
  | none => b

def combineU (u2 u1 : FieldUpd) : FieldUpd :=
  ⟨ocomb u2.owned u1.owned, ocomb u2.invented u1.invented,
   ocomb u2.me u1.me, ocomb u2.te u1.te⟩

def idU : FieldUpd := ⟨none, none, none, none⟩

theorem ocomb_getD {α : Type} (a b : Option α) (c : α) :
    (ocomb a b).getD c = a.getD (b.getD c) := by
  cases a <;> rfl

theorem getD_getD_self {α : Type} (a : Option α) (x : α) :
    a.getD (a.getD x) = a.getD x := by
  cases a <;> rfl

theorem applyU_id (r : Record) : applyU idU r = r := rfl

theorem applyU_combineU (u2 u1 : FieldUpd) (r : Record) :
    applyU (combineU u2 u1) r = applyU u2 (applyU u1 r) := by
  unfold applyU combineU
  simp [ocomb_getD]

theorem applyU_idem (u : FieldUpd) (r : Record) :
    applyU u (applyU u r) = applyU u r := by
  unfold applyU
  simp [getD_getD_self]

/-- The record everything defaults to
(`{'owned': False, 'invented': False, 'me': 0, 'te': 0}`). -/
def d0 : Record := ⟨false, false, 0, 0⟩

/-- The shapes of overlay writes occurring in the three bulk passes. -/
inductive BpOp where
  | replaceAll (o i : Bool) (m t : Int)
  | setOwned (o : Bool)
  | setMe (v : Int)
  | setTe (v : Int)
  | setMeIfPresent
  | setTeIfPresent
deriving Repr, DecidableEq

def updOf : BpOp → FieldUpd
  | .replaceAll o i m t => ⟨some o, some i, some m, some t⟩
  | .setOwned o => ⟨some o, none, none, none⟩
  | .setMe v => ⟨none, none, some v, none⟩
  | .setTe v => ⟨none, none, none, some v⟩
  | .setMeIfPresent => ⟨none, none, some 0, none⟩
  | .setTeIfPresent => ⟨none, none, none, some 0⟩

/-- Conditional ops skip absent records (the capital-component `ValueError`
arms of the ME/TE passes). -/
def isCond : BpOp → Bool
  | .setMeIfPresent => true
  | .setTeIfPresent => true
  | _ => false

def evalOp (op : BpOp) : Option Record → Option Record
  | some r => some (applyU (updOf op) r)
  | none => if isCond op then none else some (applyU (updOf op) d0)

def evalOps (ops : List BpOp) (v : Option Record) : Option Record :=
  ops.foldl (fun acc op => evalOp op acc) v

def compU : List BpOp → FieldUpd
  | [] => idU
  | op :: ops => combineU (compU ops) (updOf op)

theorem evalOps_some (ops : List BpOp) (r : Record) :
    evalOps ops (some r) = some (applyU (compU ops) r) := by
  induction ops generalizing r with
  | nil => rfl
  | cons op ops ih =>
    show evalOps ops (evalOp op (some r)) = _
    rw [show evalOp op (some r) = some (applyU (updOf op) r) from rfl, ih,
      show compU (op :: ops) = combineU (compU ops) (updOf op) from rfl,
      applyU_combineU]

theorem applyU_cond_d0 {op : BpOp} (h : isCond op = true) : applyU (updOf op) d0 = d0 := by
  cases op <;> simp_all [isCond] <;> rfl

/-- A record that arises from running ops on an absent entry is the
composite update applied to the default record: conditional ops write
exactly the default field values. -/
theorem evalOps_none_eq (ops : List BpOp) (r : Record)
    (h : evalOps ops none = some r) : r = applyU (compU ops) d0 := by
  induction ops generalizing r with
  | nil => cases h
  | cons op ops ih =>
    replace h : evalOps ops (evalOp op none) = some r := h
    cases hc : isCond op with
    | false =>
      rw [show evalOp op none = if isCond op then none else some (applyU (updOf op) d0)
          from rfl, hc] at h
      rw [if_neg Bool.false_ne_true] at h
      rw [evalOps_some] at h
      injection h with h
      rw [show compU (op :: ops) = combineU (compU ops) (updOf op) from rfl, applyU_combineU]
      exact h.symm
    | true =>
      rw [show evalOp op none = if isCond op then none else some (applyU (updOf op) d0)
          from rfl, hc] at h
      simp only [if_pos rfl] at h
      rw [show compU (op :: ops) = combineU (compU ops) (updOf op) from rfl, applyU_combineU,
        applyU_cond_d0 hc]
      exact ih r h

/-- Perform one keyed overlay write. -/
def applyOpAt (cfg : Cfg) (c n : String) (op : BpOp) : Cfg :=
  match evalOp op (lookup2 cfg c n) with
  | some r => write2 cfg c n r
  | none => cfg

theorem lookup2_applyOpAt (cfg : Cfg) (c n : String) (op : BpOp) (c' n' : String) :
    lookup2 (applyOpAt cfg c n op) c' n'
      = if c' = c ∧ n' = n then evalOp op (lookup2 cfg c n) else lookup2 cfg c' n' := by
  by_cases hcn : c' = c ∧ n' = n
  · obtain ⟨h1, h2⟩ := hcn
    subst h1
    subst h2
    rw [if_pos ⟨rfl, rfl⟩]
    unfold applyOpAt
    cases hv : evalOp op (lookup2 cfg c' n') with
    | none =>
      have hnone : lookup2 cfg c' n' = none := by
        cases hl : lookup2 cfg c' n' with
        | none => rfl
        | some r => rw [hl] at hv; cases hv
      exact hnone
    | some r => exact lookup2_write2_self cfg c' n' r
  · rw [if_neg hcn]
    unfold applyOpAt
    cases hv : evalOp op (lookup2 cfg c n) with
    | none => rfl
    | some r => exact lookup2_write2_ne cfg c n c' n' r hcn

/-- The keyed write the ownership pass performs for one module, if any. -/
def pass1OpCat (category_name category : String) (m : GuiModule) : Option (String × BpOp) :=
  if category_name = "capital_components" then
    match m.ownership_var with
    | some (.ok v) => some ("component_blueprints", .setOwned (v = "owned"))
    | _ => none
  else
    match m.ownership_var with
    | some (.ok v) =>
      some (category, .replaceAll (v = "owned") (m.invented_var.getD false)
        (isdigitVal m.me_var) (isdigitVal m.te_var))
    | _ => none

/-- The keyed write the ME pass performs for one module, if any. -/
def pass2OpCat (category_name category : String) (m : GuiModule) : Option (String × BpOp) :=
  match m.me_var with
  | none => none
  | some s =>
    match pyInt s with
    | some v =>
      some (if category_name = "capital_components" then "component_blueprints" else category,
        .setMe (if v < 0 then 0 else v))
    | none =>
      if category_name = "capital_components" then some ("component_blueprints", .setMeIfPresent)
      else some (category, .setMe 0)

/-- The keyed write the TE pass performs for one module, if any. -/
def pass3OpCat (category_name category : String) (m : GuiModule) : Option (String × BpOp) :=
  match m.te_var with
  | none => none
  | some s =>
    match pyInt s with
    | some v =>
      some (if category_name = "capital_components" then "component_blueprints" else category,
        .setTe (if v < 0 then 0 else v))
    | none =>
      if category_name = "capital_components" then some ("component_blueprints", .setTeIfPresent)
      else some (category, .setTe 0)

/-- The `me_var` normalization the ME pass applies to a module. -/
def norm2 (m : GuiModule) : GuiModule :=
  match m.me_var with
  | none => m
  | some s =>
    match pyInt s with
    | some v => if v < 0 then { m with me_var := some "0" } else m
    | none => { m with me_var := some "0" }

/-- The `te_var` normalization the TE pass applies to a module. -/
def norm3 (m : GuiModule) : GuiModule :=
  match m.te_var with
  | none => m
  | some s =>
    match pyInt s with
    | some v => if v < 0 then { m with te_var := some "0" } else m
    | none => { m with te_var := some "0" }

theorem pass1Body_eq_applyOp (cn cat nm : String) (m : GuiModule) (cfg : Cfg) :
    pass1Body cn cat nm m cfg
      = match pass1OpCat cn cat m with
        | some p => applyOpAt cfg p.1 nm p.2
        | none => cfg := by
  by_cases hcc : cn = "capital_components"
  · cases hm : m.ownership_var with
    | none => simp [pass1Body, pass1OpCat, hcc, hm]
    | some ex =>
      cases ex with
      | error e => simp [pass1Body, pass1OpCat, hcc, hm]
      | ok v =>
        cases hl : lookup2 cfg "component_blueprints" nm with
        | none =>
          simp [pass1Body, pass1OpCat, applyOpAt, hcc, hm, hl, evalOp, updOf, applyU, d0, isCond]
        | some r =>
          simp [pass1Body, pass1OpCat, applyOpAt, hcc, hm, hl, evalOp, updOf, applyU]
  · cases hm : m.ownership_var with
    | none => simp [pass1Body, pass1OpCat, hcc, hm]
    | some ex =>
      cases ex with
      | error e => simp [pass1Body, pass1OpCat, hcc, hm]
      | ok v =>
        cases hl : lookup2 cfg cat nm with
        | none =>
          simp [pass1Body, pass1OpCat, applyOpAt, hcc, hm, hl, evalOp, updOf, applyU, d0, isCond]
        | some r =>
          simp [pass1Body, pass1OpCat, applyOpAt, hcc, hm, hl, evalOp, updOf, applyU]

theorem pass2Body_eq_applyOp (cn cat nm : String) (m : GuiModule) (cfg : Cfg) :
    (pass2Body cn cat nm m cfg).2
      = match pass2OpCat cn cat m with
        | some p => applyOpAt cfg p.1 nm p.2
        | none => cfg := by
  cases hm : m.me_var with
  | none => simp [pass2Body, pass2OpCat, hm]
  | some s =>
    cases hp : pyInt s with
    | some v =>
      by_cases hcc : cn = "capital_components"
      · cases hl : lookup2 cfg "component_blueprints" nm with
        | none =>
          simp [pass2Body, pass2OpCat, applyOpAt, hm, hp, hcc, hl, evalOp, updOf, applyU,
            d0, isCond]
        | some r =>
          simp [pass2Body, pass2OpCat, applyOpAt, hm, hp, hcc, hl, evalOp, updOf, applyU]
      · cases hl : lookup2 cfg cat nm with
        | none =>
          simp [pass2Body, pass2OpCat, applyOpAt, update_blueprint_me, hm, hp, hcc, hl,
            evalOp, updOf, applyU, d0, isCond]
        | some r =>
          simp [pass2Body, pass2OpCat, applyOpAt, update_blueprint_me, hm, hp, hcc, hl,
            evalOp, updOf, applyU]
    | none =>
      by_cases hcc : cn = "capital_components"
      · cases hl : lookup2 cfg "component_blueprints" nm with
        | none =>
          simp [pass2Body, pass2OpCat, applyOpAt, hm, hp, hcc, hl, evalOp, updOf, applyU,
            d0, isCond]
        | some r =>
          simp [pass2Body, pass2OpCat, applyOpAt, hm, hp, hcc, hl, evalOp, updOf, applyU,
            isCond]
      · cases hl : lookup2 cfg cat nm with
        | none =>
          simp [pass2Body, pass2OpCat, applyOpAt, update_blueprint_me, hm, hp, hcc, hl,
            evalOp, updOf, applyU, d0, isCond]
        | some r =>
          simp [pass2Body, pass2OpCat, applyOpAt, update_blueprint_me, hm, hp, hcc, hl,
            evalOp, updOf, applyU]

theorem pass3Body_eq_applyOp (cn cat nm : String) (m : GuiModule) (cfg : Cfg) :
    (pass3Body cn cat nm m cfg).2
      = match pass3OpCat cn cat m with
        | some p => applyOpAt cfg p.1 nm p.2
        | none => cfg := by
  cases hm : m.te_var with
  | none => simp [pass3Body, pass3OpCat, hm]
  | some s =>
    cases hp : pyInt s with
    | some v =>
      by_cases hcc : cn = "capital_components"
      · cases hl : lookup2 cfg "component_blueprints" nm with
        | none =>
          simp [pass3Body, pass3OpCat, applyOpAt, hm, hp, hcc, hl, evalOp, updOf, applyU,
            d0, isCond]
        | some r =>
          simp [pass3Body, pass3OpCat, applyOpAt, hm, hp, hcc, hl, evalOp, updOf, applyU]
      · cases hl : lookup2 cfg cat nm with
        | none =>
          simp [pass3Body, pass3OpCat, applyOpAt, update_blueprint_te, hm, hp, hcc, hl,
            evalOp, updOf, applyU, d0, isCond]
        | some r =>
          simp [pass3Body, pass3OpCat, applyOpAt, update_blueprint_te, hm, hp, hcc, hl,
            evalOp, updOf, applyU]
    | none =>
      by_cases hcc : cn = "capital_components"
      · cases hl : lookup2 cfg "component_blueprints" nm with
        | none =>
          simp [pass3Body, pass3OpCat, applyOpAt, hm, hp, hcc, hl, evalOp, updOf, applyU,
            d0, isCond]
        | some r =>
          simp [pass3Body, pass3OpCat, applyOpAt, hm, hp, hcc, hl, evalOp, updOf, applyU,
            isCond]
      · cases hl : lookup2 cfg cat nm with
        | none =>
          simp [pass3Body, pass3OpCat, applyOpAt, update_blueprint_te, hm, hp, hcc, hl,
            evalOp, updOf, applyU, d0, isCond]
        | some r =>
          simp [pass3Body, pass3OpCat, applyOpAt, update_blueprint_te, hm, hp, hcc, hl,
            evalOp, updOf, applyU]

theorem pass2Body_fst (cn cat nm : String) (m : GuiModule) (cfg : Cfg) :
    (pass2Body cn cat nm m cfg).1 = norm2 m := by
  cases hm : m.me_var with
  | none => simp [pass2Body, norm2, hm]
  | some s =>
    cases hp : pyInt s with
    | some v => by_cases hcc : cn = "capital_components" <;> simp [pass2Body, norm2, hm, hp, hcc]
    | none => by_cases hcc : cn = "capital_components" <;> simp [pass2Body, norm2, hm, hp, hcc]

theorem pass3Body_fst (cn cat nm : String) (m : GuiModule) (cfg : Cfg) :
    (pass3Body cn cat nm m cfg).1 = norm3 m := by
  cases hm : m.te_var with
  | none => simp [pass3Body, norm3, hm]
  | some s =>
    cases hp : pyInt s with
    | some v => by_cases hcc : cn = "capital_components" <;> simp [pass3Body, norm3, hm, hp, hcc]
    | none => by_cases hcc : cn = "capital_components" <;> simp [pass3Body, norm3, hm, hp, hcc]

theorem evalOps_ne_none (ops : List BpOp) (r : Record) :
    evalOps ops (some r) ≠ none := by
  rw [evalOps_some]
  exact Option.some_ne_none _

theorem evalOps_cons (op : BpOp) (ops : List BpOp) (v : Option Record) :
    evalOps (op :: ops) v = evalOps ops (evalOp op v) := rfl

theorem evalOps_append (a b : List BpOp) (v : Option Record) :
    evalOps (a ++ b) v = evalOps b (evalOps a v) := by
  simp [evalOps, List.foldl_append]

/-- The ops a pass performs at one (category, name) key, in module order. -/
def opsOfMods (opOf : String → String → GuiModule → Option (String × BpOp))
    (cn cat : String) : List (String × GuiModule) → String → String → List BpOp
  | [], _, _ => []
  | e :: t, c, n =>
    let rest := opsOfMods opOf cn cat t c n
    match opOf cn cat e.2 with
    | some p => if p.1 = c ∧ e.1 = n then p.2 :: rest else rest
    | none => rest

theorem lookup2_pass1_fold (cn cat : String) (mods : List (String × GuiModule)) (cfg : Cfg)
    (c n : String) :
    lookup2 (mods.foldl (fun acc e => pass1Body cn cat e.1 e.2 acc) cfg) c n
      = evalOps (opsOfMods pass1OpCat cn cat mods c n) (lookup2 cfg c n) := by
  induction mods generalizing cfg with
  | nil => rfl
  | cons e t ih =>
    rw [List.foldl_cons, ih, pass1Body_eq_applyOp]
    simp only [opsOfMods]
    cases hop : pass1OpCat cn cat e.2 with
    | none => rfl
    | some p =>
      rw [lookup2_applyOpAt]
      show _ = evalOps (if p.1 = c ∧ e.1 = n
        then p.2 :: opsOfMods pass1OpCat cn cat t c n
        else opsOfMods pass1OpCat cn cat t c n) (lookup2 cfg c n)
      by_cases hk : c = p.1 ∧ n = e.1
      · rw [if_pos hk, if_pos ⟨hk.1.symm, hk.2.symm⟩, evalOps_cons, hk.1, hk.2]
      · rw [if_neg hk, if_neg (fun hh => hk ⟨hh.1.symm, hh.2.symm⟩)]

/-- The ownership pass's ops for one category, with its skip guard. -/
def ops1Cat (cn : String) (mods : List (String × GuiModule)) (c n : String) : List BpOp :=
  let category := get_category_from_module_type cn
  if category.isEmpty || mods.isEmpty then []
  else opsOfMods pass1OpCat cn category mods c n

theorem lookup2_pass1Cat (cfg : Cfg) (cn : String) (mods : List (String × GuiModule))
    (c n : String) :
    lookup2 (pass1Cat cfg cn mods) c n = evalOps (ops1Cat cn mods c n) (lookup2 cfg c n) := by
  simp only [pass1Cat, ops1Cat]
  by_cases hg : ((get_category_from_module_type cn).isEmpty || mods.isEmpty) = true
  · rw [if_pos hg, if_pos hg]
    rfl
  · rw [if_neg hg, if_neg hg]
    exact lookup2_pass1_fold cn (get_category_from_module_type cn) mods cfg c n

/-- The ownership pass's ops at one key. -/
def ops1Dm (dm : DiscoveredModules) (c n : String) : List BpOp :=
  dm.foldr (fun cm acc => ops1Cat cm.1 cm.2 c n ++ acc) []

theorem lookup2_pass1 (dm : DiscoveredModules) (cfg : Cfg) (c n : String) :
    lookup2 (pass1 dm cfg) c n = evalOps (ops1Dm dm c n) (lookup2 cfg c n) := by
  induction dm generalizing cfg with
  | nil => rfl
  | cons cm t ih =>
    show lookup2 (pass1 t (pass1Cat cfg cm.1 cm.2)) c n = _
    rw [ih, lookup2_pass1Cat]
    show _ = evalOps (ops1Cat cm.1 cm.2 c n ++ ops1Dm t c n) (lookup2 cfg c n)
    rw [evalOps_append]

theorem lookup2_passMods (body : String → String → String → GuiModule → Cfg → GuiModule × Cfg)
    (opOf : String → String → GuiModule → Option (String × BpOp))
    (hb : ∀ cn cat nm m cfg, (body cn cat nm m cfg).2
        = match opOf cn cat m with
          | some p => applyOpAt cfg p.1 nm p.2
          | none => cfg)
    (cn cat : String) (mods : List (String × GuiModule)) (cfg : Cfg) (c n : String) :
    lookup2 ((passMods body cn cat mods cfg).2) c n
      = evalOps (opsOfMods opOf cn cat mods c n) (lookup2 cfg c n) := by
  induction mods generalizing cfg with
  | nil => rfl
  | cons e t ih =>
    show lookup2 ((passMods body cn cat t (body cn cat e.1 e.2 cfg).2).2) c n = _
    rw [ih, hb]
    simp only [opsOfMods]
    cases hop : opOf cn cat e.2 with
    | none => rfl
    | some p =>
      rw [lookup2_applyOpAt]
      show _ = evalOps (if p.1 = c ∧ e.1 = n
        then p.2 :: opsOfMods opOf cn cat t c n
        else opsOfMods opOf cn cat t c n) (lookup2 cfg c n)
      by_cases hk : c = p.1 ∧ n = e.1
      · rw [if_pos hk, if_pos ⟨hk.1.symm, hk.2.symm⟩, evalOps_cons, hk.1, hk.2]
      · rw [if_neg hk, if_neg (fun hh => hk ⟨hh.1.symm, hh.2.symm⟩)]

/-- A keyed pass's ops at one key, over all categories. -/
def opsDm (opOf : String → String → GuiModule → Option (String × BpOp))
    (dm : DiscoveredModules) (c n : String) : List BpOp :=
  dm.foldr
    (fun cm acc => opsOfMods opOf cm.1 (get_category_from_module_type cm.1) cm.2 c n ++ acc) []

theorem lookup2_passDm (body : String → String → String → GuiModule → Cfg → GuiModule × Cfg)
    (opOf : String → String → GuiModule → Option (String × BpOp))
    (hb : ∀ cn cat nm m cfg, (body cn cat nm m cfg).2
        = match opOf cn cat m with
          | some p => applyOpAt cfg p.1 nm p.2
          | none => cfg)
    (dm : DiscoveredModules) (cfg : Cfg) (c n : String) :
    lookup2 ((passDm body dm cfg).2) c n = evalOps (opsDm opOf dm c n) (lookup2 cfg c n) := by
  induction dm generalizing cfg with
  | nil => rfl
  | cons cm t ih =>
    show lookup2 ((passDm body t
      (passMods body cm.1 (get_category_from_module_type cm.1) cm.2 cfg).2).2) c n = _
    rw [ih, lookup2_passMods body opOf hb]
    show _ = evalOps (opsOfMods opOf cm.1 (get_category_from_module_type cm.1) cm.2 c n
      ++ opsDm opOf t c n) (lookup2 cfg c n)
    rw [evalOps_append]

theorem passMods_fst (body : String → String → String → GuiModule → Cfg → GuiModule × Cfg)
    (norm : GuiModule → GuiModule)
    (hf : ∀ cn cat nm m cfg, (body cn cat nm m cfg).1 = norm m)
    (cn cat : String) (mods : List (String × GuiModule)) (cfg : Cfg) :
    (passMods body cn cat mods cfg).1 = mods.map (fun e => (e.1, norm e.2)) := by
  induction mods generalizing cfg with
  | nil => rfl
  | cons e t ih =>
    show ((e.1, (body cn cat e.1 e.2 cfg).1)
      :: (passMods body cn cat t (body cn cat e.1 e.2 cfg).2).1) = _
    rw [hf, ih, List.map_cons]

theorem passDm_fst (body : String → String → String → GuiModule → Cfg → GuiModule × Cfg)
    (norm : GuiModule → GuiModule)
    (hf : ∀ cn cat nm m cfg, (body cn cat nm m cfg).1 = norm m)
    (dm : DiscoveredModules) (cfg : Cfg) :
    (passDm body dm cfg).1
      = dm.map (fun cm => (cm.1, cm.2.map (fun e => (e.1, norm e.2)))) := by
  induction dm generalizing cfg with
  | nil => rfl
  | cons cm t ih =>
    show ((cm.1, (passMods body cm.1 (get_category_from_module_type cm.1) cm.2 cfg).1)
      :: (passDm body t
        (passMods body cm.1 (get_category_from_module_type cm.1) cm.2 cfg).2).1) = _
    rw [passMods_fst body norm hf, ih, List.map_cons]

/-- Apply a module transformation across the discovered-modules structure. -/
def normDm (g : GuiModule → GuiModule) (dm : DiscoveredModules) : DiscoveredModules :=
  dm.map (fun cm => (cm.1, cm.2.map (fun e => (e.1, g e.2))))

/-- The op sequence a full bulk save performs at one key (the TE pass sees
the ME-normalized modules). -/
def bulkOps (dm : DiscoveredModules) (c n : String) : List BpOp :=
  ops1Dm dm c n ++ opsDm pass2OpCat dm c n ++ opsDm pass3OpCat (normDm norm2 dm) c n

theorem lookup2_bulk (dm : DiscoveredModules) (cfg : Cfg) (flushOk : Bool) (c n : String) :
    lookup2 (update_all_ownership_values dm cfg flushOk).2.1 c n
      = evalOps (bulkOps dm c n) (lookup2 cfg c n) := by
  show lookup2 ((passDm pass3Body (passDm pass2Body dm (pass1 dm cfg)).1
    (passDm pass2Body dm (pass1 dm cfg)).2).2) c n = _
  rw [lookup2_passDm pass3Body pass3OpCat pass3Body_eq_applyOp,
    passDm_fst pass2Body norm2 pass2Body_fst,
    lookup2_passDm pass2Body pass2OpCat pass2Body_eq_applyOp,
    lookup2_pass1]
  show _ = evalOps (ops1Dm dm c n ++ opsDm pass2OpCat dm c n
    ++ opsDm pass3OpCat (normDm norm2 dm) c n) (lookup2 cfg c n)
  rw [evalOps_append, evalOps_append]
  rfl

theorem bulk_fst (dm : DiscoveredModules) (cfg : Cfg) (flushOk : Bool) :
    (update_all_ownership_values dm cfg flushOk).1
      = normDm (fun m => norm3 (norm2 m)) dm := by
  show (passDm pass3Body (passDm pass2Body dm (pass1 dm cfg)).1
    (passDm pass2Body dm (pass1 dm cfg)).2).1 = _
  rw [passDm_fst pass3Body norm3 pass3Body_fst, passDm_fst pass2Body norm2 pass2Body_fst]
  simp [normDm, List.map_map, Function.comp]

/-- Key-level idempotence: replaying the same op sequence on the result of
a first run changes nothing. -/
theorem evalOps_idem (ops : List BpOp) (v : Option Record) :
    evalOps ops (evalOps ops v) = evalOps ops v := by
  cases hv : evalOps ops v with
  | none =>
    cases v with
    | none => exact hv
    | some r => exact absurd hv (evalOps_ne_none ops r)
  | some r =>
    rw [evalOps_some]
    cases v with
    | none =>
      have hr := evalOps_none_eq ops r hv
      rw [hr, applyU_idem]
    | some r0 =>
      rw [evalOps_some] at hv
      injection hv with hv
      rw [← hv, applyU_idem]

/-! ### C2: what the bulk passes guarantee about ME/TE ranges -/

theorem isdigitVal_nonneg (v : Option String) : 0 ≤ isdigitVal v := by
  cases v with
  | none => simp [isdigitVal]
  | some s =>
    simp only [isdigitVal]
    by_cases hd : pyIsDigit s = true
    · obtain ⟨nn, hn1, hn2⟩ := pyInt_of_isDigit hd
      rw [if_pos hd, hn1]
      exact hn2
    · rw [if_neg hd]

/-- Nonnegative ME and TE in a record. -/
def recNN (r : Record) : Prop := 0 ≤ r.me ∧ 0 ≤ r.te

/-- Nonnegative ME/TE of an optional record. -/
def optNN : Option Record → Prop
  | none => True
  | some r => recNN r

/-- An op whose field writes keep ME/TE nonnegative. -/
def opNN (op : BpOp) : Prop :=
  (∀ v, (updOf op).me = some v → 0 ≤ v) ∧ (∀ v, (updOf op).te = some v → 0 ≤ v)

theorem applyU_NN {u : FieldUpd} (hme : ∀ v, u.me = some v → 0 ≤ v)
    (hte : ∀ v, u.te = some v → 0 ≤ v) {r : Record} (hr : recNN r) :
    recNN (applyU u r) := by
  constructor
  · show 0 ≤ u.me.getD r.me
    cases hm : u.me with
    | none => exact hr.1
    | some c => exact hme c hm
  · show 0 ≤ u.te.getD r.te
    cases hm : u.te with
    | none => exact hr.2
    | some c => exact hte c hm

theorem evalOp_NN {op : BpOp} (hop : opNN op) {v : Option Record} (hv : optNN v) :
    optNN (evalOp op v) := by
  cases v with
  | some r => exact applyU_NN hop.1 hop.2 hv
  | none =>
    show optNN (if isCond op then none else some (applyU (updOf op) d0))
    cases isCond op with
    | true => trivial
    | false => exact applyU_NN hop.1 hop.2 ⟨le_refl 0, le_refl 0⟩

theorem evalOps_NN {ops : List BpOp} (hops : ∀ op ∈ ops, opNN op) {v : Option Record}
    (hv : optNN v) : optNN (evalOps ops v) := by
  induction ops generalizing v with
  | nil => exact hv
  | cons op t ih =>
    rw [evalOps_cons]
    exact ih (fun o ho => hops o (List.mem_cons_of_mem _ ho))
      (evalOp_NN (hops op (List.mem_cons_self _ _)) hv)

theorem opNN_setOwned (o : Bool) : opNN (.setOwned o) :=
  ⟨(fun _ hv => nomatch hv), (fun _ hv => nomatch hv)⟩

theorem opNN_replaceAll (o i : Bool) {x y : Int} (hx : 0 ≤ x) (hy : 0 ≤ y) :
    opNN (.replaceAll o i x y) :=
  ⟨(fun _ hv => by injection hv with hv; omega), (fun _ hv => by injection hv with hv; omega)⟩

theorem opNN_setMe {x : Int} (hx : 0 ≤ x) : opNN (.setMe x) :=
  ⟨(fun _ hv => by injection hv with hv; omega), (fun _ hv => nomatch hv)⟩

theorem opNN_setTe {x : Int} (hx : 0 ≤ x) : opNN (.setTe x) :=
  ⟨(fun _ hv => nomatch hv), (fun _ hv => by injection hv with hv; omega)⟩

theorem opNN_setMeIfPresent : opNN .setMeIfPresent :=
  ⟨(fun _ hv => by injection hv with hv; omega), (fun _ hv => nomatch hv)⟩

theorem opNN_setTeIfPresent : opNN .setTeIfPresent :=
  ⟨(fun _ hv => nomatch hv), (fun _ hv => by injection hv with hv; omega)⟩

theorem pass1OpCat_NN (cn cat : String) (m : GuiModule) (p : String × BpOp)
    (h : pass1OpCat cn cat m = some p) : opNN p.2 := by
  by_cases hcc : cn = "capital_components" <;>
  · cases hm : m.ownership_var with
    | none => simp [pass1OpCat, hcc, hm] at h
    | some ex =>
      cases ex with
      | error e => simp [pass1OpCat, hcc, hm] at h
      | ok v =>
        simp only [pass1OpCat, hcc, hm, if_pos, if_neg, if_true, if_false, ite_true,
          ite_false, Option.some.injEq] at h
        first
        | (rw [← h]; exact opNN_setOwned _)
        | (rw [← h]; exact opNN_replaceAll _ _ (isdigitVal_nonneg _) (isdigitVal_nonneg _))

theorem pass2OpCat_NN (cn cat : String) (m : GuiModule) (p : String × BpOp)
    (h : pass2OpCat cn cat m = some p) : opNN p.2 := by
  cases hm : m.me_var with
  | none => simp [pass2OpCat, hm] at h
  | some s =>
    cases hp : pyInt s with
    | some v =>
      simp only [pass2OpCat, hm, hp, Option.some.injEq] at h
      rw [← h]
      exact opNN_setMe (by split_ifs <;> omega)
    | none =>
      by_cases hcc : cn = "capital_components" <;>
        simp only [pass2OpCat, hm, hp, hcc, if_true, if_false, ite_true, ite_false,
          Option.some.injEq] at h <;>
        rw [← h]
      · exact opNN_setMeIfPresent
      · exact opNN_setMe (le_refl 0)

theorem pass3OpCat_NN (cn cat : String) (m : GuiModule) (p : String × BpOp)
    (h : pass3OpCat cn cat m = some p) : opNN p.2 := by
  cases hm : m.te_var with
  | none => simp [pass3OpCat, hm] at h
  | some s =>
    cases hp : pyInt s with
    | some v =>
      simp only [pass3OpCat, hm, hp, Option.some.injEq] at h
      rw [← h]
      exact opNN_setTe (by split_ifs <;> omega)
    | none =>
      by_cases hcc : cn = "capital_components" <;>
        simp only [pass3OpCat, hm, hp, hcc, if_true, if_false, ite_true, ite_false,
          Option.some.injEq] at h <;>
        rw [← h]
      · exact opNN_setTeIfPresent
      · exact opNN_setTe (le_refl 0)

theorem opsOfMods_NN (opOf : String → String → GuiModule → Option (String × BpOp))
    (hNN : ∀ cn cat m p, opOf cn cat m = some p → opNN p.2)
    (cn cat : String) (mods : List (String × GuiModule)) (c n : String) :
    ∀ op ∈ opsOfMods opOf cn cat mods c n, opNN op := by
  induction mods with
  | nil => intro op h; simp [opsOfMods] at h
  | cons e t ih =>
    intro op h
    simp only [opsOfMods] at h
    revert h
    cases hop : opOf cn cat e.2 with
    | none => exact fun h => ih op h
    | some p =>
      intro h
      replace h : op ∈ (if p.1 = c ∧ e.1 = n
        then p.2 :: opsOfMods opOf cn cat t c n
        else opsOfMods opOf cn cat t c n) := h
      by_cases hk : p.1 = c ∧ e.1 = n
      · rw [if_pos hk] at h
        rcases List.mem_cons.mp h with rfl | hmem
        · exact hNN cn cat e.2 p hop
        · exact ih op hmem
      · rw [if_neg hk] at h
        exact ih op h

theorem ops1Dm_NN (dm : DiscoveredModules) (c n : String) :
    ∀ op ∈ ops1Dm dm c n, opNN op := by
  induction dm with
  | nil => intro op h; simp [ops1Dm] at h
  | cons cm t ih =>
    intro op h
    simp only [ops1Dm, List.foldr_cons] at h
    rcases List.mem_append.mp h with h1 | h2
    · revert h1
      simp only [ops1Cat]
      by_cases hg : ((get_category_from_module_type cm.1).isEmpty || cm.2.isEmpty) = true
      · rw [if_pos hg]
        intro h1
        simp at h1
      · rw [if_neg hg]
        exact fun h1 => opsOfMods_NN pass1OpCat pass1OpCat_NN cm.1
          (get_category_from_module_type cm.1) cm.2 c n op h1
    · exact ih op h2

theorem opsDm_NN (opOf : String → String → GuiModule → Option (String × BpOp))
    (hNN : ∀ cn cat m p, opOf cn cat m = some p → opNN p.2)
    (dm : DiscoveredModules) (c n : String) :
    ∀ op ∈ opsDm opOf dm c n, opNN op := by
  induction dm with
  | nil => intro op h; simp [opsDm] at h
  | cons cm t ih =>
    intro op h
    simp only [opsDm, List.foldr_cons] at h
    rcases List.mem_append.mp h with h1 | h2
    · exact opsOfMods_NN opOf hNN cm.1 (get_category_from_module_type cm.1) cm.2 c n op h1
    · exact ih op h2

theorem bulkOps_NN (dm : DiscoveredModules) (c n : String) :
    ∀ op ∈ bulkOps dm c n, opNN op := by
  intro op h
  rcases List.mem_append.mp h with h1 | h3
  · rcases List.mem_append.mp h1 with h1a | h1b
    · exact ops1Dm_NN dm c n op h1a
    · exact opsDm_NN pass2OpCat pass2OpCat_NN dm c n op h1b
  · exact opsDm_NN pass3OpCat pass3OpCat_NN (normDm norm2 dm) c n op h3

/-- C2 (amended): the bulk save clamps negative cached ME/TE values to 0 and
resets non-numeric ones to 0, so it preserves the invariant
`0 ≤ me ∧ 0 ≤ te` over all overlay records — but it does not enforce the
upper bounds 10/20: cached values above them are written unchanged (see the
counterexample). -/
theorem bulk_save_preserves_nonneg (dm : DiscoveredModules) (cfg : Cfg) (flushOk : Bool)
    (h : ∀ c n r, lookup2 cfg c n = some r → 0 ≤ r.me ∧ 0 ≤ r.te) :
    ∀ c n r, lookup2 (update_all_ownership_values dm cfg flushOk).2.1 c n = some r →
      0 ≤ r.me ∧ 0 ≤ r.te := by
  intro c n r hr
  rw [lookup2_bulk] at hr
  have hv : optNN (lookup2 cfg c n) := by
    cases hl : lookup2 cfg c n with
    | none => trivial
    | some r0 => exact h c n r0 hl
  have hout := evalOps_NN (bulkOps_NN dm c n) hv
  rw [hr] at hout
  exact hout

theorem bulk_save_preserves_nonneg_witness :
    (0 : Int) ≤ (Record.mk true false 0 0).me ∧ (0 : Int) ≤ (Record.mk true false 0 0).te :=
  bulk_save_preserves_nonneg
    [("components", [("Gun", { ownership_var := some (.ok "owned"), me_var := some "-5" })])]
    [] true
    (fun c n r hc => by simp [lookup2, alookup] at hc)
    "components" "Gun" (Record.mk true false 0 0) (by decide)

/-- C2 counterexample: a capital component whose cached ME text is `"15"`
ends the bulk save with `me = 15` in the overlay — the claimed clamp to
`[0, 10]` (which would store 10) does not happen. -/
theorem bulk_save_does_not_clamp_me_above :
    (lookup2 (update_all_ownership_values
        [("capital_components", [("CapArm", { me_var := some "15" })])] [] true).2.1
      "component_blueprints" "CapArm").map Record.me = some 15
    ∧ ¬((15 : Int) ≤ 10) := by decide

/-! ### C3: the second bulk run replays the first run's writes -/

theorem pyInt_zeroStr : pyInt "0" = some 0 := by decide

theorem isdigitVal_zero : isdigitVal (some "0") = 0 := by decide

theorem pyIsDigit_false_of_neg {s : String} {v : Int} (hp : pyInt s = some v) (hv : v < 0) :
    pyIsDigit s = false := by
  by_contra hc
  rw [Bool.not_eq_false] at hc
  obtain ⟨nn, hn1, hn2⟩ := pyInt_of_isDigit hc
  rw [hp] at hn1
  injection hn1 with hn1
  omega

theorem pyIsDigit_false_of_none {s : String} (hp : pyInt s = none) : pyIsDigit s = false := by
  by_contra hc
  rw [Bool.not_eq_false] at hc
  obtain ⟨nn, hn1, _⟩ := pyInt_of_isDigit hc
  rw [hp] at hn1
  cases hn1

theorem norm2_ownership (m : GuiModule) : (norm2 m).ownership_var = m.ownership_var := by
  cases hm : m.me_var with
  | none => simp [norm2, hm]
  | some s =>
    cases hp : pyInt s with
    | some v => by_cases hv : v < 0 <;> simp [norm2, hm, hp, hv]
    | none => simp [norm2, hm, hp]

theorem norm2_invented (m : GuiModule) : (norm2 m).invented_var = m.invented_var := by
  cases hm : m.me_var with
  | none => simp [norm2, hm]
  | some s =>
    cases hp : pyInt s with
    | some v => by_cases hv : v < 0 <;> simp [norm2, hm, hp, hv]
    | none => simp [norm2, hm, hp]

theorem norm2_te_var (m : GuiModule) : (norm2 m).te_var = m.te_var := by
  cases hm : m.me_var with
  | none => simp [norm2, hm]
  | some s =>
    cases hp : pyInt s with
    | some v => by_cases hv : v < 0 <;> simp [norm2, hm, hp, hv]
    | none => simp [norm2, hm, hp]

theorem norm3_ownership (m : GuiModule) : (norm3 m).ownership_var = m.ownership_var := by
  cases hm : m.te_var with
  | none => simp [norm3, hm]
  | some s =>
    cases hp : pyInt s with
    | some v => by_cases hv : v < 0 <;> simp [norm3, hm, hp, hv]
    | none => simp [norm3, hm, hp]

theorem norm3_invented (m : GuiModule) : (norm3 m).invented_var = m.invented_var := by
  cases hm : m.te_var with
  | none => simp [norm3, hm]
  | some s =>
    cases hp : pyInt s with
    | some v => by_cases hv : v < 0 <;> simp [norm3, hm, hp, hv]
    | none => simp [norm3, hm, hp]

theorem norm3_me_var (m : GuiModule) : (norm3 m).me_var = m.me_var := by
  cases hm : m.te_var with
  | none => simp [norm3, hm]
  | some s =>
    cases hp : pyInt s with
    | some v => by_cases hv : v < 0 <;> simp [norm3, hm, hp, hv]
    | none => simp [norm3, hm, hp]

theorem isdigitVal_norm2 (m : GuiModule) :
    isdigitVal (norm2 m).me_var = isdigitVal m.me_var := by
  cases hm : m.me_var with
  | none => simp [norm2, hm]
  | some s =>
    cases hp : pyInt s with
    | some v =>
      by_cases hv : v < 0
      · have hnd := pyIsDigit_false_of_neg hp hv
        have h1 : (norm2 m).me_var = some "0" := by simp [norm2, hm, hp, hv]
        rw [h1, isdigitVal_zero]
        simp [isdigitVal, hnd]
      · have h1 : norm2 m = m := by simp [norm2, hm, hp, hv]
        rw [h1, hm]
    | none =>
      have hnd := pyIsDigit_false_of_none hp
      have h1 : (norm2 m).me_var = some "0" := by simp [norm2, hm, hp]
      rw [h1, isdigitVal_zero]
      simp [isdigitVal, hnd]

theorem isdigitVal_norm3 (m : GuiModule) :
    isdigitVal (norm3 m).te_var = isdigitVal m.te_var := by
  cases hm : m.te_var with
  | none => simp [norm3, hm]
  | some s =>
    cases hp : pyInt s with
    | some v =>
      by_cases hv : v < 0
      · have hnd := pyIsDigit_false_of_neg hp hv
        have h1 : (norm3 m).te_var = some "0" := by simp [norm3, hm, hp, hv]
        rw [h1, isdigitVal_zero]
        simp [isdigitVal, hnd]
      · have h1 : norm3 m = m := by simp [norm3, hm, hp, hv]
        rw [h1, hm]
    | none =>
      have hnd := pyIsDigit_false_of_none hp
      have h1 : (norm3 m).te_var = some "0" := by simp [norm3, hm, hp]
      rw [h1, isdigitVal_zero]
      simp [isdigitVal, hnd]

theorem pass1OpCat_norm2 (cn cat : String) (m : GuiModule) :
    pass1OpCat cn cat (norm2 m) = pass1OpCat cn cat m := by
  unfold pass1OpCat
  rw [norm2_ownership, norm2_invented, isdigitVal_norm2, norm2_te_var]

theorem pass1OpCat_norm3 (cn cat : String) (m : GuiModule) :
    pass1OpCat cn cat (norm3 m) = pass1OpCat cn cat m := by
  unfold pass1OpCat
  rw [norm3_ownership, norm3_invented, isdigitVal_norm3, norm3_me_var]

theorem pass2OpCat_norm3 (cn cat : String) (m : GuiModule) :
    pass2OpCat cn cat (norm3 m) = pass2OpCat cn cat m := by
  unfold pass2OpCat
  rw [norm3_me_var]

theorem pass3OpCat_norm2 (cn cat : String) (m : GuiModule) :
    pass3OpCat cn cat (norm2 m) = pass3OpCat cn cat m := by
  unfold pass3OpCat
  rw [norm2_te_var]

/-- The cached text of a numeric entry variable: absent, or parses via
Python `int`. -/
def varNumB : Option String → Bool
  | none => true
  | some s => (pyInt s).isSome

theorem pass2OpCat_norm2 (cn cat : String) (m : GuiModule)
    (h : cn = "capital_components" → varNumB m.me_var = true) :
    pass2OpCat cn cat (norm2 m) = pass2OpCat cn cat m := by
  cases hm : m.me_var with
  | none =>
    have h1 : norm2 m = m := by simp [norm2, hm]
    rw [h1]
  | some s =>
    cases hp : pyInt s with
    | some v =>
      by_cases hv : v < 0
      · have h1 : (norm2 m).me_var = some "0" := by simp [norm2, hm, hp, hv]
        simp [pass2OpCat, h1, hm, hp, pyInt_zeroStr, hv]
      · have h1 : norm2 m = m := by simp [norm2, hm, hp, hv]
        rw [h1]
    | none =>
      by_cases hcc : cn = "capital_components"
      · exfalso
        have hb := h hcc
        simp [varNumB, hm, hp] at hb
      · have h1 : (norm2 m).me_var = some "0" := by simp [norm2, hm, hp]
        simp [pass2OpCat, h1, hm, hp, pyInt_zeroStr, hcc]

theorem pass3OpCat_norm3 (cn cat : String) (m : GuiModule)
    (h : cn = "capital_components" → varNumB m.te_var = true) :
    pass3OpCat cn cat (norm3 m) = pass3OpCat cn cat m := by
  cases hm : m.te_var with
  | none =>
    have h1 : norm3 m = m := by simp [norm3, hm]
    rw [h1]
  | some s =>
    cases hp : pyInt s with
    | some v =>
      by_cases hv : v < 0
      · have h1 : (norm3 m).te_var = some "0" := by simp [norm3, hm, hp, hv]
        simp [pass3OpCat, h1, hm, hp, pyInt_zeroStr, hv]
      · have h1 : norm3 m = m := by simp [norm3, hm, hp, hv]
        rw [h1]
    | none =>
      by_cases hcc : cn = "capital_components"
      · exfalso
        have hb := h hcc
        simp [varNumB, hm, hp] at hb
      · have h1 : (norm3 m).te_var = some "0" := by simp [norm3, hm, hp]
        simp [pass3OpCat, h1, hm, hp, pyInt_zeroStr, hcc]

theorem normDm_comp (g f : GuiModule → GuiModule) (dm : DiscoveredModules) :
    normDm g (normDm f dm) = normDm (fun m => g (f m)) dm := by
  simp [normDm, List.map_map, Function.comp]

theorem opsOfMods_map_eq (opOf : String → String → GuiModule → Option (String × BpOp))
    (cn cat : String) (g : GuiModule → GuiModule) (mods : List (String × GuiModule))
    (c n : String) (h : ∀ e ∈ mods, opOf cn cat (g e.2) = opOf cn cat e.2) :
    opsOfMods opOf cn cat (mods.map (fun e => (e.1, g e.2))) c n
      = opsOfMods opOf cn cat mods c n := by
  induction mods with
  | nil => rfl
  | cons e t ih =>
    simp only [List.map_cons, opsOfMods]
    rw [h e (List.mem_cons_self _ _)]
    rw [ih (fun x hx => h x (List.mem_cons_of_mem _ hx))]

theorem ops1Cat_map_eq (cn : String) (g : GuiModule → GuiModule)
    (mods : List (String × GuiModule)) (c n : String)
    (h : ∀ e ∈ mods, pass1OpCat cn (get_category_from_module_type cn) (g e.2)
        = pass1OpCat cn (get_category_from_module_type cn) e.2) :
    ops1Cat cn (mods.map (fun e => (e.1, g e.2))) c n = ops1Cat cn mods c n := by
  simp only [ops1Cat]
  have hemp : (mods.map (fun e => (e.1, g e.2))).isEmpty = mods.isEmpty := by
    cases mods <;> rfl
  rw [hemp]
  by_cases hg : ((get_category_from_module_type cn).isEmpty || mods.isEmpty) = true
  · rw [if_pos hg, if_pos hg]
  · rw [if_neg hg, if_neg hg]
    exact opsOfMods_map_eq pass1OpCat cn (get_category_from_module_type cn) g mods c n h

theorem ops1Dm_map_eq (g : GuiModule → GuiModule) (dm : DiscoveredModules) (c n : String)
    (h : ∀ cm ∈ dm, ∀ e ∈ cm.2,
      pass1OpCat cm.1 (get_category_from_module_type cm.1) (g e.2)
        = pass1OpCat cm.1 (get_category_from_module_type cm.1) e.2) :
    ops1Dm (normDm g dm) c n = ops1Dm dm c n := by
  induction dm with
  | nil => rfl
  | cons cm t ih =>
    show ops1Cat cm.1 (cm.2.map (fun e => (e.1, g e.2))) c n ++ ops1Dm (normDm g t) c n
      = ops1Cat cm.1 cm.2 c n ++ ops1Dm t c n
    rw [ops1Cat_map_eq cm.1 g cm.2 c n (h cm (List.mem_cons_self _ _)),
      ih (fun cm' h' e he => h cm' (List.mem_cons_of_mem _ h') e he)]

theorem opsDm_map_eq (opOf : String → String → GuiModule → Option (String × BpOp))
    (g : GuiModule → GuiModule) (dm : DiscoveredModules) (c n : String)
    (h : ∀ cm ∈ dm, ∀ e ∈ cm.2,
      opOf cm.1 (get_category_from_module_type cm.1) (g e.2)
        = opOf cm.1 (get_category_from_module_type cm.1) e.2) :
    opsDm opOf (normDm g dm) c n = opsDm opOf dm c n := by
  induction dm with
  | nil => rfl
  | cons cm t ih =>
    show opsOfMods opOf cm.1 (get_category_from_module_type cm.1)
        (cm.2.map (fun e => (e.1, g e.2))) c n ++ opsDm opOf (normDm g t) c n
      = opsOfMods opOf cm.1 (get_category_from_module_type cm.1) cm.2 c n
        ++ opsDm opOf t c n
    rw [opsOfMods_map_eq opOf cm.1 (get_category_from_module_type cm.1) g cm.2 c n
        (h cm (List.mem_cons_self _ _)),
      ih (fun cm' h' e he => h cm' (List.mem_cons_of_mem _ h') e he)]

/-- With numeric (or absent) capital-component ME/TE texts, the module
normalization a bulk run performs does not change any pass's op stream. -/
theorem bulkOps_stable (dm : DiscoveredModules) (c n : String)
    (h : ∀ cm ∈ dm, cm.1 = "capital_components" →
      ∀ e ∈ cm.2, varNumB e.2.me_var = true ∧ varNumB e.2.te_var = true) :
    bulkOps (normDm (fun m => norm3 (norm2 m)) dm) c n = bulkOps dm c n := by
  unfold bulkOps
  have h1 : ops1Dm (normDm (fun m => norm3 (norm2 m)) dm) c n = ops1Dm dm c n :=
    ops1Dm_map_eq _ dm c n (fun cm _ e _ => by rw [pass1OpCat_norm3, pass1OpCat_norm2])
  have h2 : opsDm pass2OpCat (normDm (fun m => norm3 (norm2 m)) dm) c n
      = opsDm pass2OpCat dm c n :=
    opsDm_map_eq pass2OpCat _ dm c n (fun cm hcm e he => by
      rw [pass2OpCat_norm3]
      exact pass2OpCat_norm2 _ _ _ (fun hcc => (h cm hcm hcc e he).1))
  have h3 : opsDm pass3OpCat (normDm norm2 (normDm (fun m => norm3 (norm2 m)) dm)) c n
      = opsDm pass3OpCat (normDm norm2 dm) c n := by
    rw [normDm_comp]
    have h3a : opsDm pass3OpCat (normDm (fun m => norm2 (norm3 (norm2 m))) dm) c n
        = opsDm pass3OpCat dm c n :=
      opsDm_map_eq pass3OpCat _ dm c n (fun cm hcm e he => by
        rw [pass3OpCat_norm2]
        rw [pass3OpCat_norm3 _ _ _ (fun hcc => by
          rw [norm2_te_var]
          exact (h cm hcm hcc e he).2)]
        exact pass3OpCat_norm2 _ _ _)
    have h3b : opsDm pass3OpCat (normDm norm2 dm) c n = opsDm pass3OpCat dm c n :=
      opsDm_map_eq pass3OpCat norm2 dm c n (fun cm _ e _ => pass3OpCat_norm2 _ _ _)
    rw [h3a, h3b]
  rw [h1, h2, h3]

/-- C3 (amended): bulk save is idempotent on the overlay for every state in
which each capital-component module's cached ME and TE texts are absent or
numeric.  (Unrestricted idempotence fails: see the counterexample — a
capital component with non-numeric ME text and no overlay record gains a
default record only on the second run, because the first run's
`ValueError` arm skips record creation but normalizes the text to `"0"`.) -/
theorem bulk_save_idempotent_amended (dm : DiscoveredModules) (cfg : Cfg) (f1 f2 : Bool)
    (h : ∀ cm ∈ dm, cm.1 = "capital_components" →
      ∀ e ∈ cm.2, varNumB e.2.me_var = true ∧ varNumB e.2.te_var = true) :
    ∀ c n,
      lookup2 (update_all_ownership_values
        (update_all_ownership_values dm cfg f1).1
        (update_all_ownership_values dm cfg f1).2.1 f2).2.1 c n
      = lookup2 (update_all_ownership_values dm cfg f1).2.1 c n := by
  intro c n
  rw [lookup2_bulk, bulk_fst, bulkOps_stable dm c n h, lookup2_bulk]
  exact evalOps_idem (bulkOps dm c n) (lookup2 cfg c n)

theorem bulk_save_idempotent_amended_witness :
    lookup2 (update_all_ownership_values
      (update_all_ownership_values
        [("capital_components", [("CapArm", { me_var := some "15" })])] [] true).1
      (update_all_ownership_values
        [("capital_components", [("CapArm", { me_var := some "15" })])] [] true).2.1
      true).2.1 "component_blueprints" "CapArm"
    = lookup2 (update_all_ownership_values
        [("capital_components", [("CapArm", { me_var := some "15" })])] [] true).2.1
      "component_blueprints" "CapArm" :=
  bulk_save_idempotent_amended
    [("capital_components", [("CapArm", { me_var := some "15" })])] [] true true
    (by decide) "component_blueprints" "CapArm"

/-- C3 counterexample: with a capital component whose cached ME text is
non-numeric (`"abc"`) and an empty overlay, the first bulk save writes
nothing, but the second — after the first normalized the text to `"0"` —
creates a default record, so the overlay contents after the two runs
differ. -/
theorem bulk_save_not_idempotent :
    lookup2 (update_all_ownership_values
        [("capital_components", [("CapPart", { me_var := some "abc" })])] [] true).2.1
      "component_blueprints" "CapPart" = none
    ∧ lookup2 (update_all_ownership_values
        (update_all_ownership_values
          [("capital_components", [("CapPart", { me_var := some "abc" })])] [] true).1
        (update_all_ownership_values
          [("capital_components", [("CapPart", { me_var := some "abc" })])] [] true).2.1
        true).2.1 "component_blueprints" "CapPart"
      = some ⟨false, false, 0, 0⟩ := by decide

/-! ### C7: per-entity exceptions in the bulk pass -/

theorem pass1Body_skip (cn cat nm : String) (m : GuiModule) (cfg : Cfg)
    (h : m.ownership_var = some (.error ()) ∨ m.ownership_var = none) :
    pass1Body cn cat nm m cfg = cfg := by
  rcases h with h | h <;> by_cases hcc : cn = "capital_components" <;>
    simp [pass1Body, hcc, h]

theorem isEmpty_append_cons {α : Type} (l : List α) (x : α) (t : List α) :
    (l ++ x :: t).isEmpty = false := by
  cases l <;> rfl

theorem pass1Cat_skip_congr (cfg : Cfg) (cn : String) (mpre mpost : List (String × GuiModule))
    (nm : String) (m : GuiModule) (h : m.ownership_var = some (.error ())) :
    pass1Cat cfg cn (mpre ++ (nm, m) :: mpost)
      = pass1Cat cfg cn (mpre ++ (nm, { m with ownership_var := none }) :: mpost) := by
  simp only [pass1Cat, isEmpty_append_cons, Bool.or_false]
  by_cases hg : (get_category_from_module_type cn).isEmpty = true
  · rw [if_pos hg, if_pos hg]
  · rw [if_neg hg, if_neg hg]
    rw [List.foldl_append, List.foldl_append, List.foldl_cons, List.foldl_cons]
    rw [pass1Body_skip _ _ _ _ _ (Or.inl h), pass1Body_skip _ _ _ _ _ (Or.inr rfl)]

theorem pass1_skip_congr (pre post : DiscoveredModules) (cn : String)
    (mpre mpost : List (String × GuiModule)) (nm : String) (m : GuiModule) (cfg : Cfg)
    (h : m.ownership_var = some (.error ())) :
    pass1 (pre ++ (cn, mpre ++ (nm, m) :: mpost) :: post) cfg
      = pass1 (pre ++ (cn, mpre ++ (nm, { m with ownership_var := none }) :: mpost) :: post)
          cfg := by
  induction pre generalizing cfg with
  | nil =>
    show pass1 post (pass1Cat cfg cn (mpre ++ (nm, m) :: mpost)) = _
    rw [pass1Cat_skip_congr cfg cn mpre mpost nm m h]
    rfl
  | cons cm t ih =>
    show pass1 (t ++ (cn, mpre ++ (nm, m) :: mpost) :: post) (pass1Cat cfg cm.1 cm.2) = _
    exact ih _

theorem passMods_cfg_congr
    (body : String → String → String → GuiModule → Cfg → GuiModule × Cfg)
    (hOwn : ∀ cn cat nm mm cfg (x : Option (Except Unit String)),
      (body cn cat nm { mm with ownership_var := x } cfg).2 = (body cn cat nm mm cfg).2)
    (cn cat : String) (mpre mpost : List (String × GuiModule)) (nm : String)
    (mm : GuiModule) (x : Option (Except Unit String)) (cfg : Cfg) :
    (passMods body cn cat (mpre ++ (nm, { mm with ownership_var := x }) :: mpost) cfg).2
      = (passMods body cn cat (mpre ++ (nm, mm) :: mpost) cfg).2 := by
  induction mpre generalizing cfg with
  | nil =>
    show (passMods body cn cat mpost
        (body cn cat nm { mm with ownership_var := x } cfg).2).2
      = (passMods body cn cat mpost (body cn cat nm mm cfg).2).2
    rw [hOwn]
  | cons e t ih =>
    show (passMods body cn cat (t ++ (nm, { mm with ownership_var := x }) :: mpost)
        (body cn cat e.1 e.2 cfg).2).2 = _
    exact ih _

theorem passDm_cfg_congr
    (body : String → String → String → GuiModule → Cfg → GuiModule × Cfg)
    (hOwn : ∀ cn cat nm mm cfg (x : Option (Except Unit String)),
      (body cn cat nm { mm with ownership_var := x } cfg).2 = (body cn cat nm mm cfg).2)
    (pre post : DiscoveredModules) (cn : String) (mpre mpost : List (String × GuiModule))
    (nm : String) (mm : GuiModule) (x : Option (Except Unit String)) (cfg : Cfg) :
    (passDm body (pre ++ (cn, mpre ++ (nm, { mm with ownership_var := x }) :: mpost) :: post)
        cfg).2
      = (passDm body (pre ++ (cn, mpre ++ (nm, mm) :: mpost) :: post) cfg).2 := by
  induction pre generalizing cfg with
  | nil =>
    show (passDm body post (passMods body cn (get_category_from_module_type cn)
        (mpre ++ (nm, { mm with ownership_var := x }) :: mpost) cfg).2).2 = _
    rw [passMods_cfg_congr body hOwn]
    rfl
  | cons cm t ih =>
    show (passDm body (t ++ (cn, mpre ++ (nm, { mm with ownership_var := x }) :: mpost) :: post)
        (passMods body cm.1 (get_category_from_module_type cm.1) cm.2 cfg).2).2 = _
    exact ih _

theorem pass2OpCat_ownershipBlind (cn cat : String) (mm : GuiModule)
    (x : Option (Except Unit String)) :
    pass2OpCat cn cat { mm with ownership_var := x } = pass2OpCat cn cat mm := by
  cases hm : mm.me_var with
  | none => simp [pass2OpCat, hm]
  | some s => simp [pass2OpCat, hm]

theorem pass3OpCat_ownershipBlind (cn cat : String) (mm : GuiModule)
    (x : Option (Except Unit String)) :
    pass3OpCat cn cat { mm with ownership_var := x } = pass3OpCat cn cat mm := by
  cases hm : mm.te_var with
  | none => simp [pass3OpCat, hm]
  | some s => simp [pass3OpCat, hm]

theorem pass2Body_ownershipBlind (cn cat nm : String) (mm : GuiModule) (cfg : Cfg)
    (x : Option (Except Unit String)) :
    (pass2Body cn cat nm { mm with ownership_var := x } cfg).2
      = (pass2Body cn cat nm mm cfg).2 := by
  rw [pass2Body_eq_applyOp, pass2Body_eq_applyOp, pass2OpCat_ownershipBlind]

theorem pass3Body_ownershipBlind (cn cat nm : String) (mm : GuiModule) (cfg : Cfg)
    (x : Option (Except Unit String)) :
    (pass3Body cn cat nm { mm with ownership_var := x } cfg).2
      = (pass3Body cn cat nm mm cfg).2 := by
  rw [pass3Body_eq_applyOp, pass3Body_eq_applyOp, pass3OpCat_ownershipBlind]

theorem norm2_set_ownership (m : GuiModule) (x : Option (Except Unit String)) :
    norm2 { m with ownership_var := x } = { norm2 m with ownership_var := x } := by
  cases hm : m.me_var with
  | none => simp [norm2, hm]
  | some s =>
    cases hp : pyInt s with
    | some v => by_cases hv : v < 0 <;> simp [norm2, hm, hp, hv]
    | none => simp [norm2, hm, hp]

/-- C7: the bulk save reports exactly the final flush's boolean, whatever
happened to individual entities; and an entity whose `ownership_var.get()`
raises (the `except Exception` arms of the ownership pass) produces the
same overlay as if it had no `ownership_var` at all — its ownership write
is skipped silently, its ME/TE writes and every other entity's writes still
happen. -/
theorem bulk_save_swallows_per_entity_exception :
    (∀ (dm : DiscoveredModules) (cfg : Cfg) (flushOk : Bool),
      (update_all_ownership_values dm cfg flushOk).2.2 = flushOk)
    ∧ (∀ (pre post : DiscoveredModules) (cn : String)
        (mpre mpost : List (String × GuiModule)) (nm : String) (m : GuiModule)
        (cfg : Cfg) (flushOk : Bool),
      m.ownership_var = some (.error ()) →
      (update_all_ownership_values (pre ++ (cn, mpre ++ (nm, m) :: mpost) :: post)
        cfg flushOk).2.1
      = (update_all_ownership_values
          (pre ++ (cn, mpre ++ (nm, { m with ownership_var := none }) :: mpost) :: post)
          cfg flushOk).2.1) := by
  constructor
  · intro dm cfg flushOk
    rfl
  · intro pre post cn mpre mpost nm m cfg flushOk h
    have hcfg1 := pass1_skip_congr pre post cn mpre mpost nm m cfg h
    have hcfg2 : (passDm pass2Body (pre ++ (cn, mpre ++ (nm, m) :: mpost) :: post)
        (pass1 (pre ++ (cn, mpre ++ (nm, m) :: mpost) :: post) cfg)).2
      = (passDm pass2Body
          (pre ++ (cn, mpre ++ (nm, { m with ownership_var := none }) :: mpost) :: post)
          (pass1 (pre ++ (cn, mpre ++ (nm, { m with ownership_var := none }) :: mpost) :: post)
            cfg)).2 := by
      rw [hcfg1]
      exact (passDm_cfg_congr pass2Body pass2Body_ownershipBlind pre post cn mpre mpost nm m
        none _).symm
    show (passDm pass3Body
        (passDm pass2Body (pre ++ (cn, mpre ++ (nm, m) :: mpost) :: post)
          (pass1 (pre ++ (cn, mpre ++ (nm, m) :: mpost) :: post) cfg)).1
        (passDm pass2Body (pre ++ (cn, mpre ++ (nm, m) :: mpost) :: post)
          (pass1 (pre ++ (cn, mpre ++ (nm, m) :: mpost) :: post) cfg)).2).2
      = (passDm pass3Body
        (passDm pass2Body
          (pre ++ (cn, mpre ++ (nm, { m with ownership_var := none }) :: mpost) :: post)
          (pass1 (pre ++ (cn, mpre ++ (nm, { m with ownership_var := none }) :: mpost) :: post)
            cfg)).1
        (passDm pass2Body
          (pre ++ (cn, mpre ++ (nm, { m with ownership_var := none }) :: mpost) :: post)
          (pass1 (pre ++ (cn, mpre ++ (nm, { m with ownership_var := none }) :: mpost) :: post)
            cfg)).2).2
    rw [hcfg2, passDm_fst pass2Body norm2 pass2Body_fst, passDm_fst pass2Body norm2
      pass2Body_fst]
    simp only [normDm, List.map_append, List.map_cons]
    rw [norm2_set_ownership m none]
    exact (passDm_cfg_congr pass3Body pass3Body_ownershipBlind
      (pre.map (fun cm => (cm.1, cm.2.map (fun e => (e.1, norm2 e.2)))))
      (post.map (fun cm => (cm.1, cm.2.map (fun e => (e.1, norm2 e.2))))) cn
      (mpre.map (fun e => (e.1, norm2 e.2))) (mpost.map (fun e => (e.1, norm2 e.2)))
      nm (norm2 m) none _).symm

theorem bulk_save_swallows_per_entity_exception_witness :
    (update_all_ownership_values
      ([] ++ ("ships", [] ++ ("raven",
        ({ ownership_var := some (.error ()), me_var := some "3" } : GuiModule)) :: []) :: [])
      [] true).2.1
    = (update_all_ownership_values
      ([] ++ ("ships", [] ++ ("raven",
        ({ ownership_var := none, me_var := some "3" } : GuiModule)) :: []) :: [])
      [] true).2.1 :=
  bulk_save_swallows_per_entity_exception.2 [] [] "ships" [] [] "raven"
    { ownership_var := some (.error ()), me_var := some "3" } [] true rfl

end EveTracker

